import Mathlib

/-!
Shallow embedding of `qeijo/pw.py` (class `calc`, class `out`) in Lean 4.

Modelling conventions:
* Python floats are modelled as exact rationals (`ℚ`); the numeric literals
  `13.605` and `0.529177` from the source are the exact rationals `13605/1000`
  and `529177/1000000`.
* Python exceptions are modelled by `Except PyErr`: an out-of-range list index
  is `.indexError`, a missing dictionary key is `.keyError`, a failing
  `int()`/`float()` conversion is `.valueError`, arithmetic on `None` is
  `.typeError`, and reading an unassigned local is `.nameError`.
* Python dicts are insertion-ordered association lists (`Dict`); assignment
  updates an existing key in place or appends a fresh one at the end.
* `str.split()` / `readlines()` / `str.lower()` / `str.replace(",","")` are
  reproduced on the character lists underlying the strings.
-/

namespace Qeijo

/-- Kinds of Python run-time errors that the embedded code can raise. -/
inductive PyErr where
  | indexError
  | keyError
  | valueError
  | typeError
  | nameError
deriving DecidableEq, Repr

instance exceptDecEq {ε α : Type} [DecidableEq ε] [DecidableEq α] :
    DecidableEq (Except ε α) := fun a b =>
  match a, b with
  | .ok x, .ok y =>
      if h : x = y then isTrue (by rw [h]) else
        isFalse (fun he => by cases he; exact h rfl)
  | .ok _, .error _ => isFalse (fun he => by cases he)
  | .error _, .ok _ => isFalse (fun he => by cases he)
  | .error e, .error f =>
      if h : e = f then isTrue (by rw [h]) else
        isFalse (fun he => by cases he; exact h rfl)

@[simp] theorem ok_bind {ε α β : Type} (a : α) (f : α → Except ε β) :
    (Except.ok a >>= f) = f a := rfl

@[simp] theorem error_bind {ε α β : Type} (e : ε) (f : α → Except ε β) :
    ((Except.error e : Except ε α) >>= f) = Except.error e := rfl

@[simp] theorem pure_eq_ok {ε α : Type} (a : α) :
    (pure a : Except ε α) = Except.ok a := rfl

/-- `optE o e` turns an `Option` into an `Except`, raising `e` on `none`. -/
def optE {α : Type} (o : Option α) (e : PyErr) : Except PyErr α :=
  match o with
  | some a => .ok a
  | none => .error e

@[simp] theorem optE_some {α : Type} (a : α) (e : PyErr) :
    optE (some a) e = .ok a := rfl

@[simp] theorem optE_none {α : Type} (e : PyErr) :
    optE (none : Option α) e = .error e := rfl

/-- Python list indexing `l[i]` (raises `IndexError` when out of range). -/
def getE {α : Type} (l : List α) (i : ℕ) : Except PyErr α :=
  optE (l.get? i) .indexError

/-- Insertion-ordered dictionary from parameter names to raw textual values. -/
abbrev Dict := List (String × String)

/-- First-match lookup in a `Dict`. -/
def lookupD : Dict → String → Option String
  | [], _ => none
  | (k', v) :: t, k => if k' = k then some v else lookupD t k

/-- Python dict access `d[k]` (raises `KeyError` when the key is missing). -/
def getD0 (d : Dict) (k : String) : Except PyErr String :=
  optE (lookupD d k) .keyError

/-- Python dict assignment `d[k] = v`: update the key in place when present
(keys are unique in a Python dict), or append a fresh one at the end. -/
def updateD : Dict → String → String → Dict
  | [], k, v => [(k, v)]
  | (k', v') :: t, k, v =>
      if k' = k then (k, v) :: t else (k', v') :: updateD t k v

/-- Characters treated as whitespace by Python `str.split()`. -/
def isSpaceCh (c : Char) : Bool :=
  c = ' ' || c = '\t' || c = '\n' || c = '\r' || c = '\x0b' || c = '\x0c'

/-- Token splitter on character lists (`str.split()` with no argument). -/
def pySplitAux : List Char → List Char → List (List Char)
  | cur, [] => if cur = [] then [] else [cur.reverse]
  | cur, c :: cs =>
      if isSpaceCh c then
        if cur = [] then pySplitAux [] cs else cur.reverse :: pySplitAux [] cs
      else
        pySplitAux (c :: cur) cs

/-- Python `line.split()`: whitespace-delimited nonempty tokens. -/
def pySplit (s : String) : List String :=
  (pySplitAux [] s.toList).map String.mk

/-- Newline splitter for `f.readlines()` (terminators themselves dropped,
since every use site tokenizes with `split()` which discards them). -/
def splitNlAux : List Char → List Char → List (List Char)
  | cur, [] => [cur.reverse]
  | cur, c :: cs =>
      if c = '\n' then cur.reverse :: splitNlAux [] cs else splitNlAux (c :: cur) cs

/-- The list of lines of a text, as produced by `f.readlines()`. -/
def pyLines (s : String) : List String :=
  let ls := splitNlAux [] s.toList
  (match ls.getLast? with
   | some [] => ls.dropLast
   | _ => ls).map String.mk

/-- ASCII lower-casing of a character (`str.lower()` on the deck headers). -/
def lowCh (c : Char) : Char :=
  if 65 ≤ c.toNat ∧ c.toNat ≤ 90 then Char.ofNat (c.toNat + 32) else c

/-- ASCII `str.lower()`. -/
def lowStr (s : String) : String :=
  String.mk (s.toList.map lowCh)

/-- `str.replace(",", "")`: removes every comma. -/
def rmCommas (s : String) : String :=
  String.mk (s.toList.filter (fun c => c ≠ ','))

/-- Value of a list of decimal digits. -/
def digitsVal (cs : List Char) : ℕ :=
  cs.foldl (fun a c => 10 * a + (c.toNat - 48)) 0

/-- Python `int(s)` on a token (decimal, optional sign). -/
def pyInt (s : String) : Except PyErr ℤ :=
  let core : List Char → Except PyErr ℤ := fun ds =>
    if ds ≠ [] ∧ ds.all Char.isDigit then .ok (digitsVal ds : ℤ)
    else .error .valueError
  match s.toList with
  | '-' :: rest => (core rest).map (fun n => -n)
  | '+' :: rest => core rest
  | cs => core cs

/-- Splits a character list at the first `'.'`, when present. -/
def splitDot : List Char → (List Char × Option (List Char))
  | [] => ([], none)
  | '.' :: rest => ([], some rest)
  | c :: rest =>
      let p := splitDot rest
      (c :: p.1, p.2)

/-- Python `float(s)` on a plain decimal token (optional sign and point). -/
def pyFloat (s : String) : Except PyErr ℚ :=
  let core : List Char → Except PyErr ℚ := fun cs =>
    match splitDot cs with
    | (ip, none) =>
        if ip ≠ [] ∧ ip.all Char.isDigit then .ok (digitsVal ip : ℚ)
        else .error .valueError
    | (ip, some fp) =>
        if (ip ≠ [] ∨ fp ≠ []) ∧ ip.all Char.isDigit ∧ fp.all Char.isDigit then
          .ok ((digitsVal ip : ℚ) + (digitsVal fp : ℚ) / (10 ^ fp.length))
        else .error .valueError
  match s.toList with
  | '-' :: rest => (core rest).map (fun q => -q)
  | '+' :: rest => core rest
  | cs => core cs

/-- Decimal digits of a natural number (fuel-based). -/
def natDigits : ℕ → ℕ → List Char
  | 0, _ => []
  | _ + 1, 0 => []
  | fuel + 1, n => natDigits fuel (n / 10) ++ [Char.ofNat (48 + n % 10)]

/-- Decimal rendering of a natural number. -/
def natStr (n : ℕ) : String :=
  if n = 0 then "0" else String.mk (natDigits (n + 1) n)

/-- Python `str` of an integer. -/
def intStr (i : ℤ) : String :=
  if i < 0 then "-" ++ natStr i.natAbs else natStr i.natAbs

/-- Zero-pads the decimal rendering of `n` to `k` digits. -/
def padDigits (k : ℕ) (n : ℕ) : String :=
  let d := natStr n
  String.mk (List.replicate (k - d.length) '0') ++ d

/-- Smallest exponent `k` (searched upward) with `d ∣ 10^k`. -/
def findExp (d : ℕ) : ℕ → ℕ → Option ℕ
  | 0, _ => none
  | fuel + 1, k =>
      if 10 ^ k % d = 0 then some k else findExp d fuel (k + 1)

/-- Python `str` of a float, for floats that are exact decimal fractions.
Works on the reduced numerator/denominator: for `den ∣ 10^k` the integer
`num * (10^k / den)` is the numerator of `q * 10^k`. -/
def pyFloatStr (q : ℚ) : String :=
  if q.den = 1 then intStr q.num ++ ".0"
  else
    match findExp q.den 60 1 with
    | some k =>
        let m : ℤ := q.num * ((10 ^ k / q.den : ℕ) : ℤ)
        (if m < 0 then "-" else "") ++
          natStr (m.natAbs / 10 ^ k) ++ "." ++ padDigits k (m.natAbs % 10 ^ k)
    | none => intStr q.num ++ "/" ++ natStr q.den

/-- The C-style format `"%.6f"` on an exact rational: renders
`⌊q * 10^6 + 1/2⌋` (computed as a floor division on numerator and
denominator) with six decimals. -/
def fmt6 (q : ℚ) : String :=
  let m : ℤ := Int.fdiv (q.num * 2000000 + (q.den : ℤ)) (2 * (q.den : ℤ))
  (if m < 0 then "-" else "") ++
    natStr (m.natAbs / 1000000) ++ "." ++ padDigits 6 (m.natAbs % 1000000)

/-- Python `str(None)` / `str(i)` for the optionally-set grid integers. -/
def optIntStr : Option ℤ → String
  | none => "None"
  | some n => intStr n

/-- Separator-joined concatenation (`", ".join(...)` style). -/
def sepJoin (sep : String) : List String → String
  | [] => ""
  | [x] => x
  | x :: xs => x ++ sep ++ sepJoin sep xs

/-- Plain concatenation of a list of strings. -/
def strConcat : List String → String
  | [] => ""
  | s :: t => s ++ strConcat t

/-- Python `str` of a list of floats, e.g. `str(self.wk)`. -/
def pyListStr (l : List ℚ) : String :=
  "[" ++ sepJoin ", " (l.map pyFloatStr) ++ "]"

/-- The attributes of class `calc` (the deck model), as initialized by
`calc.__init__` and mutated by `read_input` / `build_input`. -/
structure Calc where
  control : Dict
  system : Dict
  electrons : Dict
  ions : Dict
  cell : Dict
  atomic_species : List String
  atomic_mass : List String
  pseudopotential : List String
  atom_type : List String
  x : List ℚ
  y : List ℚ
  z : List ℚ
  kx : List ℚ
  ky : List ℚ
  kz : List ℚ
  wk : List ℚ
  if_pos1 : List ℤ
  if_pos2 : List ℤ
  if_pos3 : List ℤ
  v1 : List ℚ
  v2 : List ℚ
  v3 : List ℚ
  nk1 : Option ℤ
  nk2 : Option ℤ
  nk3 : Option ℤ
  sk1 : Option ℤ
  sk2 : Option ℤ
  sk3 : Option ℤ
  atomic_positions_units : String
  cell_parameters_units : String
  k_points_type : String
deriving DecidableEq, Repr

/-- A freshly constructed `calc()` object. -/
def freshCalc : Calc where
  control := []
  system := []
  electrons := []
  ions := []
  cell := []
  atomic_species := []
  atomic_mass := []
  pseudopotential := []
  atom_type := []
  x := []
  y := []
  z := []
  kx := []
  ky := []
  kz := []
  wk := []
  if_pos1 := []
  if_pos2 := []
  if_pos3 := []
  v1 := []
  v2 := []
  v3 := []
  nk1 := none
  nk2 := none
  nk3 := none
  sk1 := none
  sk2 := none
  sk3 := none
  atomic_positions_units := ""
  cell_parameters_units := ""
  k_points_type := ""

/-- The per-call state of `read_input`: the object under mutation together
with the local flags, the counter `j` and the local `nk`. -/
structure RS where
  c : Calc
  iscontrol : Bool
  issystem : Bool
  iselectrons : Bool
  isions : Bool
  iscell : Bool
  iscellparameters : Bool
  isatomicspecies : Bool
  isatomicpositions : Bool
  iskpoints : Bool
  j : ℤ
  nk : Option ℤ
deriving DecidableEq, Repr

/-- Initial `read_input` locals around a given object. -/
def initRS (c : Calc) : RS where
  c := c
  iscontrol := false
  issystem := false
  iselectrons := false
  isions := false
  iscell := false
  iscellparameters := false
  isatomicspecies := false
  isatomicpositions := false
  iskpoints := false
  j := 0
  nk := none

/-- One namelist body line `name = value,`: stores token 3 (index 2) with
commas removed, under the key given by token 1. -/
def nlLine (d : Dict) (t0 : String) (l : List String) : Except PyErr Dict := do
  let v ← getE l 2
  .ok (updateD d t0 (rmCommas v))

/-- One iteration of the `for line in lines` loop of `calc.read_input`
(the full `if`/`elif` chain, in source order), on the token list
`l = line.split()`. -/
def stepL (s : RS) (l : List String) : Except PyErr RS := do
  let t0 ← getE l 0
  if lowStr t0 = "&control" then
    .ok { s with iscontrol := true }
  else if s.iscontrol then
    if t0 = "/" then .ok { s with iscontrol := false }
    else do
      let d ← nlLine s.c.control t0 l
      .ok { s with c := { s.c with control := d } }
  else if lowStr t0 = "&system" then
    .ok { s with issystem := true }
  else if s.issystem then
    if t0 = "/" then .ok { s with issystem := false }
    else do
      let d ← nlLine s.c.system t0 l
      .ok { s with c := { s.c with system := d } }
  else if lowStr t0 = "&electrons" then
    .ok { s with iselectrons := true }
  else if s.iselectrons then
    if t0 = "/" then .ok { s with iselectrons := false }
    else do
      let d ← nlLine s.c.electrons t0 l
      .ok { s with c := { s.c with electrons := d } }
  else if lowStr t0 = "&ions" then
    .ok { s with isions := true }
  else if s.isions then
    if t0 = "/" then .ok { s with isions := false }
    else do
      let d ← nlLine s.c.ions t0 l
      .ok { s with c := { s.c with ions := d } }
  else if lowStr t0 = "&cell" then
    .ok { s with iscell := true }
  else if s.iscell then
    if t0 = "/" then .ok { s with iscell := false }
    else do
      let d ← nlLine s.c.cell t0 l
      .ok { s with c := { s.c with cell := d } }
  else if lowStr t0 = "cell_parameters" then
    let c' := match l.get? 1 with
      | some u => if l.length = 2 then { s.c with cell_parameters_units := u } else s.c
      | none => s.c
    .ok { s with iscellparameters := true, c := c' }
  else if s.iscellparameters then
    if s.j = 0 then do
      let a ← getE l 0
      let qa ← pyFloat a
      let b ← getE l 1
      let qb ← pyFloat b
      let c0 ← getE l 2
      let qc ← pyFloat c0
      .ok { s with c := { s.c with v1 := s.c.v1 ++ [qa, qb, qc] }, j := 1 }
    else if s.j = 1 then do
      let a ← getE l 0
      let qa ← pyFloat a
      let b ← getE l 1
      let qb ← pyFloat b
      let c0 ← getE l 2
      let qc ← pyFloat c0
      .ok { s with c := { s.c with v2 := s.c.v2 ++ [qa, qb, qc] }, j := 2 }
    else if s.j = 2 then do
      let a ← getE l 0
      let qa ← pyFloat a
      let b ← getE l 1
      let qb ← pyFloat b
      let c0 ← getE l 2
      let qc ← pyFloat c0
      .ok { s with c := { s.c with v3 := s.c.v3 ++ [qa, qb, qc] }, j := 0,
                   iscellparameters := false }
    else
      .ok s
  else if lowStr t0 = "atomic_species" then
    .ok { s with isatomicspecies := true }
  else if s.isatomicspecies then do
    let m1 ← getE l 1
    let m2 ← getE l 2
    let c' := { s.c with atomic_species := s.c.atomic_species ++ [t0],
                         atomic_mass := s.c.atomic_mass ++ [m1],
                         pseudopotential := s.c.pseudopotential ++ [m2] }
    let j' := s.j + 1
    let nt ← getD0 c'.system "ntyp"
    let ntv ← pyInt nt
    if j' = ntv then
      .ok { s with c := c', j := 0, isatomicspecies := false }
    else
      .ok { s with c := c', j := j' }
  else if lowStr t0 = "atomic_positions" then
    let c' := match l.get? 1 with
      | some u => if l.length = 2 then { s.c with atomic_positions_units := u } else s.c
      | none => s.c
    .ok { s with isatomicpositions := true, c := c' }
  else if s.isatomicpositions then do
    let sx ← getE l 1
    let qx ← pyFloat sx
    let sy ← getE l 2
    let qy ← pyFloat sy
    let sz ← getE l 3
    let qz ← pyFloat sz
    let c' := { s.c with atom_type := s.c.atom_type ++ [t0],
                         x := s.c.x ++ [qx], y := s.c.y ++ [qy], z := s.c.z ++ [qz] }
    let c'' ←
      if l.length = 7 then do
        let p1 ← getE l 4
        let i1 ← pyInt p1
        let p2 ← getE l 5
        let i2 ← pyInt p2
        let p3 ← getE l 6
        let i3 ← pyInt p3
        .ok { c' with if_pos1 := c'.if_pos1 ++ [i1], if_pos2 := c'.if_pos2 ++ [i2],
                      if_pos3 := c'.if_pos3 ++ [i3] }
      else
        .ok c'
    let j' := s.j + 1
    let na ← getD0 c''.system "nat"
    let nav ← pyInt na
    if j' = nav then
      .ok { s with c := c'', j := 0, isatomicpositions := false }
    else
      .ok { s with c := c'', j := j' }
  else if lowStr t0 = "k_points" then do
    let t1 ← getE l 1
    .ok { s with c := { s.c with k_points_type := t1 },
                 iskpoints := if t1 ≠ "gamma" then true else s.iskpoints }
  else if s.iskpoints then
    if s.c.k_points_type = "automatic" then do
      let a0 ← getE l 0
      let i0 ← pyInt a0
      let a1 ← getE l 1
      let i1 ← pyInt a1
      let a2 ← getE l 2
      let i2 ← pyInt a2
      let a3 ← getE l 3
      let i3 ← pyInt a3
      let a4 ← getE l 4
      let i4 ← pyInt a4
      let a5 ← getE l 5
      let i5 ← pyInt a5
      .ok { s with c := { s.c with nk1 := some i0, nk2 := some i1, nk3 := some i2,
                                   sk1 := some i3, sk2 := some i4, sk3 := some i5 } }
    else
      if s.j = 0 then do
        let a0 ← getE l 0
        let n ← pyInt a0
        .ok { s with nk := some n, j := 1 }
      else do
        let a0 ← getE l 0
        let qx ← pyFloat a0
        let a1 ← getE l 1
        let qy ← pyFloat a1
        let a2 ← getE l 2
        let qz ← pyFloat a2
        let a3 ← getE l 3
        let qw ← pyFloat a3
        let c' := { s.c with kx := s.c.kx ++ [qx], ky := s.c.ky ++ [qy],
                             kz := s.c.kz ++ [qz], wk := s.c.wk ++ [qw] }
        let j' := s.j + 1
        match s.nk with
        | none => .error .nameError
        | some n =>
            if j' > n then
              .ok { s with c := c', iskpoints := false, j := 0 }
            else
              .ok { s with c := c', j := j' }
  else
    .ok s

/-- One iteration of the `read_input` loop on a raw line. -/
def step (s : RS) (line : String) : Except PyErr RS :=
  stepL s (pySplit line)

/-- Runs `step` over a list of lines, propagating the first error. -/
def runLines (s : RS) : List String → Except PyErr RS
  | [] => .ok s
  | l :: ls =>
      match step s l with
      | .error e => .error e
      | .ok s' => runLines s' ls

/-- `calc.read_input`: parses text into (a mutation of) the object `c`. -/
def read_input (c : Calc) (text : String) : Except PyErr Calc :=
  match runLines (initRS c) (pyLines text) with
  | .error e => .error e
  | .ok s => .ok s.c

/-- Sequences a list of string-producing computations, concatenating the
results and propagating the first error (an accumulation loop over `range`). -/
def joinE : List (Except PyErr String) → Except PyErr String
  | [] => .ok ""
  | e :: es => do
      let s ← e
      let r ← joinE es
      .ok (s ++ r)

/-- A namelist section as emitted by `build_input`: header, one
`key = value,` line per entry in insertion order, then `/`. -/
def namelistSection (header : String) (d : Dict) : String :=
  header ++ "\n" ++ strConcat (d.map (fun kv => kv.1 ++ " = " ++ kv.2 ++ ",\n")) ++ "/\n"

/-- One `ATOMIC_SPECIES` card line (label, mass, pseudopotential file). -/
def speciesLine (m : Calc) (i : ℕ) : Except PyErr String := do
  let a ← getE m.atomic_species i
  let b ← getE m.atomic_mass i
  let p ← getE m.pseudopotential i
  .ok (a ++ "   " ++ b ++ "   " ++ p ++ "\n")

/-- The `CELL_PARAMETERS` card (only emitted when `ibrav == 0`). -/
def cellParamsCard (m : Calc) : Except PyErr String := do
  let a0 ← getE m.v1 0
  let a1 ← getE m.v1 1
  let a2 ← getE m.v1 2
  let b0 ← getE m.v2 0
  let b1 ← getE m.v2 1
  let b2 ← getE m.v2 2
  let c0 ← getE m.v3 0
  let c1 ← getE m.v3 1
  let c2 ← getE m.v3 2
  .ok ("CELL_PARAMETERS " ++ m.cell_parameters_units ++ "\n" ++
    pyFloatStr a0 ++ "   " ++ pyFloatStr a1 ++ "   " ++ pyFloatStr a2 ++ "\n" ++
    pyFloatStr b0 ++ "   " ++ pyFloatStr b1 ++ "   " ++ pyFloatStr b2 ++ "\n" ++
    pyFloatStr c0 ++ "   " ++ pyFloatStr c1 ++ "   " ++ pyFloatStr c2 ++ "\n")

/-- One `ATOMIC_POSITIONS` card line: 4 columns when `if_pos1` is empty,
otherwise 7 columns indexing into the three `if_pos` lists. -/
def posLine (m : Calc) (i : ℕ) : Except PyErr String := do
  let t ← getE m.atom_type i
  let xi ← getE m.x i
  let yi ← getE m.y i
  let zi ← getE m.z i
  if m.if_pos1.length = 0 then
    .ok (t ++ "   " ++ pyFloatStr xi ++ "   " ++ pyFloatStr yi ++ "   " ++
      pyFloatStr zi ++ "\n")
  else do
    let p1 ← getE m.if_pos1 i
    let p2 ← getE m.if_pos2 i
    let p3 ← getE m.if_pos3 i
    .ok (t ++ "   " ++ pyFloatStr xi ++ "   " ++ pyFloatStr yi ++ "   " ++
      pyFloatStr zi ++ "   " ++ intStr p1 ++ "   " ++ intStr p2 ++ "   " ++
      intStr p3 ++ "\n")

/-- Body of the `ATOMIC_POSITIONS` card (loop over `range(len(atom_type))`). -/
def posCard (m : Calc) : Except PyErr String :=
  joinE ((List.range m.atom_type.length).map (posLine m))

/-- One explicit k-point line (components and weight). -/
def kpointLine (m : Calc) (i : ℕ) : Except PyErr String := do
  let a ← getE m.kx i
  let b ← getE m.ky i
  let c ← getE m.kz i
  let w ← getE m.wk i
  .ok (pyFloatStr a ++ "   " ++ pyFloatStr b ++ "   " ++ pyFloatStr c ++ "   " ++
    pyFloatStr w ++ "\n")

/-- The `K_POINTS` card. Note that in the explicit-list branch the source
emits `str(self.wk)` — the textual repr of the whole weight list — as the
line preceding the k-point rows. -/
def kCard (m : Calc) : Except PyErr String :=
  let hdr := "K_POINTS " ++ m.k_points_type ++ "\n"
  if m.k_points_type ≠ "gamma" then
    if m.k_points_type = "automatic" then
      .ok (hdr ++ optIntStr m.nk1 ++ "   " ++ optIntStr m.nk2 ++ "   " ++
        optIntStr m.nk3 ++ "   " ++ optIntStr m.sk1 ++ "   " ++ optIntStr m.sk2 ++
        "   " ++ optIntStr m.sk3 ++ "\n")
    else do
      let body ← joinE ((List.range m.wk.length).map (kpointLine m))
      .ok (hdr ++ pyListStr m.wk ++ "\n" ++ body)
  else
    .ok hdr

/-- The initial two assignments of `build_input`:
`self.system["nat"] = str(len(self.atom_type))` and
`self.system["ntyp"] = str(len(self.atomic_species))`. -/
def updateCounts (m : Calc) : Calc :=
  { m with
    system := updateD (updateD m.system "nat" (natStr m.atom_type.length))
      "ntyp" (natStr m.atomic_species.length) }

/-- The deck text assembled by `build_input` after the count update. -/
def buildStr (m : Calc) : Except PyErr String := do
  let s1 := namelistSection "&CONTROL" m.control
  let s2 := namelistSection "&SYSTEM" m.system
  let s3 := namelistSection "&ELECTRONS" m.electrons
  let s4 := namelistSection "&IONS" m.ions
  let calcv ← getD0 m.control "calculation"
  let s5 := if calcv = "'vc-relax'" ∨ calcv = "'vc-md'" then
      namelistSection "&CELL" m.cell
    else ""
  let s6spec ← joinE ((List.range m.atomic_species.length).map (speciesLine m))
  let s6 := "ATOMIC_SPECIES\n" ++ s6spec
  let ib ← getD0 m.system "ibrav"
  let ibn ← pyInt ib
  let s7 ← if ibn = 0 then cellParamsCard m else .ok ""
  let s8body ← posCard m
  let s8 := "ATOMIC_POSITIONS " ++ m.atomic_positions_units ++ "\n" ++ s8body
  let s9 ← kCard m
  .ok (s1 ++ s2 ++ s3 ++ s4 ++ s5 ++ s6 ++ s7 ++ s8 ++ s9)

/-- `calc.build_input`: first component is the mutated object (the `nat` /
`ntyp` recomputation always happens first), second the produced deck text or
the error raised while assembling it. -/
def build_input (m : Calc) : Calc × Except PyErr String :=
  let m' := updateCounts m
  (m', buildStr m')

/-- The conversion factor `ry2ev = 13.605` of `__get_output_info__`. -/
def ry2ev : ℚ := 13605 / 1000

/-- The conversion factor `bohr2angs = 0.529177` of `__get_output_info__`. -/
def bohr2angs : ℚ := 529177 / 1000000

/-- The attributes of class `out` (the result model). -/
structure Outm where
  atom_type : List String
  x : List ℚ
  y : List ℚ
  z : List ℚ
  fx : List ℚ
  fy : List ℚ
  fz : List ℚ
  v1 : List ℚ
  v2 : List ℚ
  v3 : List ℚ
  energy : List ℚ
  magnetization : List ℚ
  absmagnetization : List ℚ
  efermi : Option ℚ
  jobdone : Bool
deriving DecidableEq, Repr

/-- The local scanning state of `__get_output_info__`. -/
structure OS where
  nextcellpar : Bool
  nextcoords : Bool
  nextforces : Bool
  i : ℤ
  j : ℤ
  a0 : Option ℚ
  t : List String
  x : List ℚ
  y : List ℚ
  z : List ℚ
  fx : List ℚ
  fy : List ℚ
  fz : List ℚ
  v1 : List ℚ
  v2 : List ℚ
  v3 : List ℚ
  natoms : Option ℤ
  energy : List ℚ
  magnetization : List ℚ
  absmagnetization : List ℚ
  efermi : Option ℚ
  jobdone : Bool
deriving DecidableEq, Repr

/-- The initial scanning state of `__get_output_info__`. -/
def initOS : OS where
  nextcellpar := false
  nextcoords := false
  nextforces := false
  i := 0
  j := 0
  a0 := none
  t := []
  x := []
  y := []
  z := []
  fx := []
  fy := []
  fz := []
  v1 := []
  v2 := []
  v3 := []
  natoms := none
  energy := []
  magnetization := []
  absmagnetization := []
  efermi := none
  jobdone := false

/-- Token at index `i`, or `""` when absent (used only under a length guard,
where the two coincide). -/
def tok (l : List String) (i : ℕ) : String :=
  l.getD i ""

/-- Python `float(l[i]) * a0` where `a0` may still be `None` (a `TypeError`).
The conversion runs first, then the multiplication, as in the source. -/
def getFlScaled (l : List String) (i : ℕ) (a0 : Option ℚ) : Except PyErr ℚ := do
  let t ← getE l i
  let q ← pyFloat t
  match a0 with
  | none => .error .typeError
  | some a => .ok (q * a)

/-- One iteration of the scanning loop of `__get_output_info__` on the token
list of a line (the full `if`/`elif` chain, in source order). -/
def stepOut (s : OS) (l : List String) : Except PyErr OS :=
  if 5 ≤ l.length ∧ tok l 0 = "!" then do
    let e ← getE l 4
    let q ← pyFloat e
    .ok { s with energy := s.energy ++ [q * ry2ev] }
  else if 5 ≤ l.length ∧ lowStr (tok l 0) = "the" ∧ lowStr (tok l 1) = "fermi" ∧
      lowStr (tok l 2) = "energy" then do
    let e ← getE l 4
    let q ← pyFloat e
    .ok { s with efermi := some q }
  else if 4 ≤ l.length ∧ tok l 1 = "magnetization" then
    if tok l 0 = "total" then
      match pyFloat (tok l 3) with
      | .ok q => .ok { s with magnetization := s.magnetization ++ [q] }
      | .error _ => .ok s
    else if tok l 0 = "absolute" then
      match pyFloat (tok l 3) with
      | .ok q => .ok { s with absmagnetization := s.absmagnetization ++ [q] }
      | .error _ => .ok s
    else
      .ok s
  else if 5 ≤ l.length ∧ lowStr (tok l 0) = "lattice" ∧
      lowStr (tok l 1) = "parameter" then do
    let e ← getE l 4
    let q ← pyFloat e
    .ok { s with a0 := some (q * bohr2angs) }
  else if 5 ≤ l.length ∧ lowStr (tok l 0) = "number" ∧ lowStr (tok l 1) = "of" then
    if lowStr (tok l 2) = "atoms/cell" then do
      let e ← getE l 4
      let n ← pyInt e
      .ok { s with natoms := some n }
    else
      .ok s
  else if 2 ≤ l.length ∧ lowStr (tok l 0) = "crystal" ∧ lowStr (tok l 1) = "axes:" then
    .ok { s with nextcellpar := true, v1 := [], v2 := [], v3 := [] }
  else if s.nextcellpar then
    if s.i = 0 then do
      let a ← getFlScaled l 3 s.a0
      let b ← getFlScaled l 4 s.a0
      let c ← getFlScaled l 5 s.a0
      .ok { s with v1 := s.v1 ++ [a, b, c], i := s.i + 1 }
    else if s.i = 1 then do
      let a ← getFlScaled l 3 s.a0
      let b ← getFlScaled l 4 s.a0
      let c ← getFlScaled l 5 s.a0
      .ok { s with v2 := s.v2 ++ [a, b, c], i := s.i + 1 }
    else if s.i = 2 then do
      let a ← getFlScaled l 3 s.a0
      let b ← getFlScaled l 4 s.a0
      let c ← getFlScaled l 5 s.a0
      .ok { s with v3 := s.v3 ++ [a, b, c], nextcellpar := false, i := s.i + 1 }
    else
      .ok { s with i := s.i + 1 }
  else if 7 ≤ l.length ∧ lowStr (tok l 0) = "forces" ∧ lowStr (tok l 1) = "acting" ∧
      lowStr (tok l 2) = "on" ∧ lowStr (tok l 3) = "atoms" then
    .ok { s with nextforces := true, fx := [], fy := [], fz := [], j := 0 }
  else if s.nextforces then
    if 0 < l.length then do
      let a ← getE l 6
      let qa ← pyFloat a
      let b ← getE l 7
      let qb ← pyFloat b
      let c ← getE l 8
      let qc ← pyFloat c
      let s' := { s with fx := s.fx ++ [qa * ry2ev / bohr2angs],
                         fy := s.fy ++ [qb * ry2ev / bohr2angs],
                         fz := s.fz ++ [qc * ry2ev / bohr2angs], j := s.j + 1 }
      if (some s'.j : Option ℤ) = s.natoms then
        .ok { s' with j := 0, nextforces := false }
      else
        .ok s'
    else
      .ok s
  else if 1 ≤ l.length ∧ lowStr (tok l 0) = "atomic_positions" then
    .ok { s with nextcoords := true, t := [], x := [], y := [], z := [], j := 0 }
  else if s.nextcoords then do
    let t0 ← getE l 0
    let a ← getE l 1
    let qa ← pyFloat a
    let b ← getE l 2
    let qb ← pyFloat b
    let c ← getE l 3
    let qc ← pyFloat c
    let s' := { s with t := s.t ++ [t0], x := s.x ++ [qa], y := s.y ++ [qb],
                       z := s.z ++ [qc], j := s.j + 1 }
    if (some s'.j : Option ℤ) = s.natoms then
      .ok { s' with j := 0, nextcoords := false }
    else
      .ok s'
  else if 5 ≤ l.length ∧ lowStr (tok l 3) = "terminated" then
    .ok { s with jobdone := true }
  else
    .ok s

/-- Runs `stepOut` over a list of token lines. -/
def scanTokens : OS → List (List String) → Except PyErr OS
  | s, [] => .ok s
  | s, l :: ls =>
      match stepOut s l with
      | .error e => .error e
      | .ok s' => scanTokens s' ls

/-- Packaging of the final scanning state into an `out` object
(lines 523–538 of the source). -/
def mkOut (s : OS) : Outm where
  atom_type := s.t
  x := s.x
  y := s.y
  z := s.z
  fx := s.fx
  fy := s.fy
  fz := s.fz
  v1 := s.v1
  v2 := s.v2
  v3 := s.v3
  energy := s.energy
  magnetization := s.magnetization
  absmagnetization := s.absmagnetization
  efermi := s.efermi
  jobdone := s.jobdone

/-- `calc.__get_output_info__` on the captured output text (the file-saving
side channels are irrelevant to the produced object and omitted). -/
def __get_output_info__ (text : String) : Except PyErr Outm :=
  match scanTokens initOS ((pyLines text).map pySplit) with
  | .error e => .error e
  | .ok s => .ok (mkOut s)

/-- One atom line written by `__write_coords__`. -/
def coordLine (o : Outm) (i : ℕ) : Except PyErr String := do
  let t ← getE o.atom_type i
  let xi ← getE o.x i
  let yi ← getE o.y i
  let zi ← getE o.z i
  .ok (t ++ " " ++ fmt6 xi ++ " " ++ fmt6 yi ++ " " ++ fmt6 zi ++ "\n")

/-- `calc.__write_coords__`: the text written to the coordinate file, or the
error raised while producing it. -/
def __write_coords__ (o : Outm) : Except PyErr String := do
  let cnt := natStr o.atom_type.length ++ "\n"
  let a0 ← getE o.v1 0
  let a1 ← getE o.v1 1
  let a2 ← getE o.v1 2
  let b0 ← getE o.v2 0
  let b1 ← getE o.v2 1
  let b2 ← getE o.v2 2
  let c0 ← getE o.v3 0
  let c1 ← getE o.v3 1
  let c2 ← getE o.v3 2
  let lat := "Lattice=\"" ++ fmt6 a0 ++ " " ++ fmt6 a1 ++ " " ++ fmt6 a2 ++ " " ++
    fmt6 b0 ++ " " ++ fmt6 b1 ++ " " ++ fmt6 b2 ++ " " ++ fmt6 c0 ++ " " ++
    fmt6 c1 ++ " " ++ fmt6 c2 ++ "\" Properties=species:S:1:pos:R:3\n"
  let body ← joinE ((List.range o.atom_type.length).map (coordLine o))
  .ok (cnt ++ lat ++ body)

/-- Whether an embedded computation succeeded. -/
def okE {α : Type} : Except PyErr α → Bool
  | .ok _ => true
  | .error _ => false

/-- The rational denoted by a float token (`0` on tokens `float` rejects);
used to spell out concrete parsed values in statements. -/
def pyF (s : String) : ℚ :=
  match pyFloat s with
  | .ok q => q
  | .error _ => 0

/-! ### Concrete instances used by individual claims -/

/-- A well-formed deck model with an explicit k-point list (one point). -/
def mC1 : Calc :=
  { freshCalc with
    control := [("calculation", "'scf'")]
    system := [("ibrav", "1")]
    atomic_species := ["H"]
    atomic_mass := ["1.0"]
    pseudopotential := ["H.upf"]
    atom_type := ["H"]
    x := [0]
    y := [0]
    z := [0]
    atomic_positions_units := "angstrom"
    k_points_type := "crystal"
    kx := [0]
    ky := [0]
    kz := [0]
    wk := [1] }

/-- A deck model whose stored `nat` disagrees with its atom list. -/
def m6 : Calc := { freshCalc with system := [("nat", "5")] }

/-- A log text containing two `crystal axes:` snapshot blocks and two
energy lines. -/
def logC4 : String :=
  "lattice parameter (alat) = 1.000000 a.u.\n" ++
  "!    total energy = -1.0 Ry\n" ++
  "crystal axes: (cart. coord. in units of alat)\n" ++
  "a(1) = ( 1.000000 0.000000 0.000000 )\n" ++
  "a(2) = ( 0.000000 1.000000 0.000000 )\n" ++
  "a(3) = ( 0.000000 0.000000 1.000000 )\n" ++
  "!    total energy = -2.0 Ry\n" ++
  "crystal axes: (cart. coord. in units of alat)\n" ++
  "a(1) = ( 2.000000 0.000000 0.000000 )\n" ++
  "a(2) = ( 0.000000 2.000000 0.000000 )\n" ++
  "a(3) = ( 0.000000 0.000000 2.000000 )\n"

/-- A log text with a lattice parameter of 2.0 and one unit cell block. -/
def logC5 : String :=
  "lattice parameter (alat) = 2.000000 a.u.\n" ++
  "crystal axes: (cart. coord. in units of alat)\n" ++
  "a(1) = ( 1.000000 0.000000 0.000000 )\n" ++
  "a(2) = ( 0.000000 1.000000 0.000000 )\n" ++
  "a(3) = ( 0.000000 0.000000 1.000000 )\n"

/-- A result model with cell vectors present but an empty atom list. -/
def oEmptyAtoms : Outm where
  atom_type := []
  x := []
  y := []
  z := []
  fx := []
  fy := []
  fz := []
  v1 := [1, 0, 0]
  v2 := [0, 1, 0]
  v3 := [0, 0, 1]
  energy := []
  magnetization := []
  absmagnetization := []
  efermi := none
  jobdone := false

/-- A result model with two atoms at integer coordinates. -/
def oC7 : Outm :=
  { oEmptyAtoms with atom_type := ["H", "O"], x := [1, 2], y := [0, 3], z := [0, 5] }

/-- A deck model with two atoms but a single-entry `if_pos1` list (the
state `read_input` leaves after a card mixing 4-token and 7-token lines). -/
def mC9 : Calc :=
  { freshCalc with
    control := [("calculation", "'scf'")]
    system := [("ibrav", "1")]
    atomic_species := ["H"]
    atomic_mass := ["1.0"]
    pseudopotential := ["H.upf"]
    atom_type := ["H", "H"]
    x := [0, 0]
    y := [0, 0]
    z := [0, 0]
    atomic_positions_units := "angstrom"
    k_points_type := "gamma"
    if_pos1 := [1]
    if_pos2 := [1]
    if_pos3 := [1] }

/-- Pointwise override of a base dictionary by the values of `r` (used to
relate a re-parse from an already-filled object to a parse from scratch):
every key of the base keeps its position, taking `r`'s value when `r`
binds it. -/
def mergeDict (r c : Dict) : Dict :=
  c.map (fun kv => (kv.1, (lookupD r kv.1).getD kv.2))

/-- Override for optionally-assigned integers: a value assigned during the
current call wins over the base value. -/
def mergeO (a b : Option ℤ) : Option ℤ :=
  match a with
  | some v => some v
  | none => b

/-- Override for string fields initialized to `""`: a (necessarily
nonempty) token assigned during the current call wins over the base. -/
def mergeS (a b : String) : String :=
  if a = "" then b else a

/-- The object state a second `read_input` call would be in, expressed from
the state `a` of the same call started on a fresh object and the object
`c1` the second call started from: dictionaries are overridden pointwise,
lists have the base contents in front, scalars take the assigned value
when one exists. -/
def mergeCalc (a c1 : Calc) : Calc where
  control := mergeDict a.control c1.control
  system := mergeDict a.system c1.system
  electrons := mergeDict a.electrons c1.electrons
  ions := mergeDict a.ions c1.ions
  cell := mergeDict a.cell c1.cell
  atomic_species := c1.atomic_species ++ a.atomic_species
  atomic_mass := c1.atomic_mass ++ a.atomic_mass
  pseudopotential := c1.pseudopotential ++ a.pseudopotential
  atom_type := c1.atom_type ++ a.atom_type
  x := c1.x ++ a.x
  y := c1.y ++ a.y
  z := c1.z ++ a.z
  kx := c1.kx ++ a.kx
  ky := c1.ky ++ a.ky
  kz := c1.kz ++ a.kz
  wk := c1.wk ++ a.wk
  if_pos1 := c1.if_pos1 ++ a.if_pos1
  if_pos2 := c1.if_pos2 ++ a.if_pos2
  if_pos3 := c1.if_pos3 ++ a.if_pos3
  v1 := c1.v1 ++ a.v1
  v2 := c1.v2 ++ a.v2
  v3 := c1.v3 ++ a.v3
  nk1 := mergeO a.nk1 c1.nk1
  nk2 := mergeO a.nk2 c1.nk2
  nk3 := mergeO a.nk3 c1.nk3
  sk1 := mergeO a.sk1 c1.sk1
  sk2 := mergeO a.sk2 c1.sk2
  sk3 := mergeO a.sk3 c1.sk3
  atomic_positions_units := mergeS a.atomic_positions_units c1.atomic_positions_units
  cell_parameters_units := mergeS a.cell_parameters_units c1.cell_parameters_units
  k_points_type := mergeS a.k_points_type c1.k_points_type

/-- The parser state of the second call related to the state `s` of the
first: same flags and counters, merged object. -/
def mergeRS (s : RS) (c1 : Calc) : RS :=
  { s with c := mergeCalc s.c c1 }

/-- Key inclusion between dictionaries. -/
def subD (a b : Dict) : Prop :=
  ∀ k, (lookupD a k).isSome = true → (lookupD b k).isSome = true

/-- Key inclusion on all five namelist dictionaries. -/
def subCalc (a b : Calc) : Prop :=
  subD a.control b.control ∧ subD a.system b.system ∧
  subD a.electrons b.electrons ∧ subD a.ions b.ions ∧ subD a.cell b.cell

/-- Keys of a dictionary. -/
def keysD (d : Dict) : List String :=
  d.map (fun kv => kv.1)

/-- A dictionary with pairwise-distinct keys (every Python dict is one). -/
def NoDupD (d : Dict) : Prop :=
  (keysD d).Nodup

/-- Distinct keys in all five namelist dictionaries. -/
def NoDupCalc (a : Calc) : Prop :=
  NoDupD a.control ∧ NoDupD a.system ∧ NoDupD a.electrons ∧ NoDupD a.ions ∧
  NoDupD a.cell

/-- Invariant of a `read_input` run started on a fresh object: while the
k-points flag is up, the k-point type has been assigned (a nonempty
token). -/
def Inv1 (s : RS) : Prop :=
  s.iskpoints = true → s.c.k_points_type ≠ ""

/-- Scanner state after the `lattice parameter` line of the C5 block. -/
def c5S1 (p : ℚ) : OS := { initOS with a0 := some (p * bohr2angs) }

/-- Scanner state after the `crystal axes:` header of the C5 block. -/
def c5S2 (p : ℚ) : OS :=
  { c5S1 p with nextcellpar := true, v1 := [], v2 := [], v3 := [] }

/-- Scanner state after the first vector line of the C5 block. -/
def c5S3 (p x1 y1 z1 : ℚ) : OS :=
  { c5S2 p with
    v1 := [x1 * (p * bohr2angs), y1 * (p * bohr2angs), z1 * (p * bohr2angs)]
    i := 1 }

/-- Scanner state after the second vector line of the C5 block. -/
def c5S4 (p x1 y1 z1 x2 y2 z2 : ℚ) : OS :=
  { c5S3 p x1 y1 z1 with
    v2 := [x2 * (p * bohr2angs), y2 * (p * bohr2angs), z2 * (p * bohr2angs)]
    i := 2 }

/-- Scanner state after the third vector line of the C5 block. -/
def c5S5 (p x1 y1 z1 x2 y2 z2 x3 y3 z3 : ℚ) : OS :=
  { c5S4 p x1 y1 z1 x2 y2 z2 with
    v3 := [x3 * (p * bohr2angs), y3 * (p * bohr2angs), z3 * (p * bohr2angs)]
    nextcellpar := false
    i := 3 }

/-- A minimal well-formed deck used to exercise the double-read behaviour
of `read_input`. -/
def c10deck : String :=
  "&SYSTEM\nntyp = 1\nnat = 1\n/\nATOMIC_SPECIES\nH 1.0 H.upf\nATOMIC_POSITIONS bohr\nH 0.0 0.0 0.0\nK_POINTS gamma\n"

/-- The object produced by a first `read_input` of `c10deck` on a fresh
object. -/
def c10c1 : Calc :=
  { freshCalc with
      system := [("ntyp", "1"), ("nat", "1")]
      atomic_species := ["H"]
      atomic_mass := ["1.0"]
      pseudopotential := ["H.upf"]
      atom_type := ["H"]
      x := [pyF "0.0"]
      y := [pyF "0.0"]
      z := [pyF "0.0"]
      atomic_positions_units := "bohr"
      k_points_type := "gamma" }

/-! ### Dictionary lemmas -/

theorem lookupD_updateD_self (d : Dict) (k v : String) :
    lookupD (updateD d k v) k = some v := by
  induction d with
  | nil => simp [updateD, lookupD]
  | cons kv t ih =>
      obtain ⟨k', v'⟩ := kv
      by_cases h : k' = k
      · simp [updateD, h, lookupD]
      · simp [updateD, h, lookupD, ih]

theorem lookupD_updateD_ne (d : Dict) (k v k' : String) (h : k' ≠ k) :
    lookupD (updateD d k v) k' = lookupD d k' := by
  have hk : ¬(k = k') := fun he => h he.symm
  induction d with
  | nil => simp [updateD, lookupD, hk]
  | cons kv t ih =>
      obtain ⟨k0, v0⟩ := kv
      by_cases h0 : k0 = k
      · subst h0
        simp [updateD, lookupD, hk]
      · by_cases h1 : k0 = k'
        · subst h1
          simp [updateD, h, lookupD]
        · simp [updateD, h0, lookupD, h1, ih]

/-! ### Sequencing lemmas -/

theorem getE_of_get? {α : Type} {l : List α} {i : ℕ} {a : α}
    (h : l.get? i = some a) : getE l i = .ok a := by
  unfold getE
  rw [h]
  rfl

theorem okE_exists {α : Type} (e : Except PyErr α) (h : okE e = true) :
    ∃ a, e = .ok a := by
  cases e with
  | ok a => exact ⟨a, rfl⟩
  | error e => simp [okE] at h

theorem get?_eq_some_getD {α : Type} [Inhabited α] (l : List α) (i : ℕ)
    (h : i < l.length) : l.get? i = some (l.getD i default) := by
  induction l generalizing i with
  | nil => simp at h
  | cons a t ih =>
      cases i with
      | zero => rfl
      | succ n => exact ih n (by simpa using h)

theorem joinE_map_ok {α : Type} (f : α → Except PyErr String) (g : α → String)
    (l : List α) (h : ∀ x ∈ l, f x = .ok (g x)) :
    joinE (l.map f) = .ok (strConcat (l.map g)) := by
  induction l with
  | nil => rfl
  | cons a t ih =>
      simp only [List.map_cons, joinE, h a (by simp),
        ih (fun x hx => h x (by simp [hx])), ok_bind, strConcat]

theorem joinE_ok_of_forall {α : Type} (f : α → Except PyErr String) (l : List α)
    (h : ∀ x ∈ l, ∃ s, f x = .ok s) : ∃ s, joinE (l.map f) = .ok s := by
  induction l with
  | nil => exact ⟨"", rfl⟩
  | cons a t ih =>
      obtain ⟨sa, hsa⟩ := h a (by simp)
      obtain ⟨st, hst⟩ := ih (fun x hx => h x (by simp [hx]))
      exact ⟨sa ++ st, by simp only [List.map_cons, joinE, hsa, hst, ok_bind]⟩

theorem joinE_error_at {α : Type} (f : α → Except PyErr String) (l1 : List α)
    (x0 : α) (l2 : List α) (e : PyErr)
    (h1 : ∀ x ∈ l1, ∃ s, f x = .ok s) (h0 : f x0 = .error e) :
    joinE ((l1 ++ x0 :: l2).map f) = .error e := by
  induction l1 with
  | nil => simp [joinE, h0]
  | cons a t ih =>
      obtain ⟨sa, hsa⟩ := h1 a (by simp)
      have ih' := ih (fun x hx => h1 x (by simp [hx]))
      simp only [List.cons_append, List.map_cons, joinE, List.append_eq, hsa,
        ok_bind] at ih' ⊢
      rw [ih']
      rfl

theorem range_split (n i : ℕ) (h : i < n) :
    ∃ l2, List.range n = List.range i ++ i :: l2 := by
  induction n with
  | zero => exact absurd h (Nat.not_lt_zero i)
  | succ n ih =>
      rcases Nat.lt_succ_iff_lt_or_eq.mp h with h' | h'
      · obtain ⟨l2, hl⟩ := ih h'
        exact ⟨l2 ++ [n], by rw [List.range_succ, hl]; simp⟩
      · subst h'
        exact ⟨[], by rw [List.range_succ]⟩

/-! ### Serializer card lemmas -/

theorem speciesCard_ok (m : Calc)
    (hmass : m.atomic_species.length ≤ m.atomic_mass.length)
    (hpseudo : m.atomic_species.length ≤ m.pseudopotential.length) :
    ∃ s, joinE ((List.range m.atomic_species.length).map (speciesLine m)) = .ok s := by
  refine joinE_ok_of_forall _ _ (fun i hi => ?_)
  have hilt := List.mem_range.mp hi
  refine okE_exists _ ?_
  simp only [speciesLine,
    getE_of_get? (get?_eq_some_getD m.atomic_species i hilt),
    getE_of_get? (get?_eq_some_getD m.atomic_mass i (by omega)),
    getE_of_get? (get?_eq_some_getD m.pseudopotential i (by omega)), ok_bind, okE]

theorem cellParamsCard_ok (m : Calc)
    (h1 : 3 ≤ m.v1.length) (h2 : 3 ≤ m.v2.length) (h3 : 3 ≤ m.v3.length) :
    ∃ s, cellParamsCard m = .ok s := by
  refine okE_exists _ ?_
  simp only [cellParamsCard,
    getE_of_get? (get?_eq_some_getD m.v1 0 (by omega)),
    getE_of_get? (get?_eq_some_getD m.v1 1 (by omega)),
    getE_of_get? (get?_eq_some_getD m.v1 2 (by omega)),
    getE_of_get? (get?_eq_some_getD m.v2 0 (by omega)),
    getE_of_get? (get?_eq_some_getD m.v2 1 (by omega)),
    getE_of_get? (get?_eq_some_getD m.v2 2 (by omega)),
    getE_of_get? (get?_eq_some_getD m.v3 0 (by omega)),
    getE_of_get? (get?_eq_some_getD m.v3 1 (by omega)),
    getE_of_get? (get?_eq_some_getD m.v3 2 (by omega)), ok_bind, okE]

theorem posLine_ok_of_cover (m : Calc) (i : ℕ)
    (hi : i < m.atom_type.length)
    (hx : m.atom_type.length ≤ m.x.length) (hy : m.atom_type.length ≤ m.y.length)
    (hz : m.atom_type.length ≤ m.z.length)
    (hifp : m.if_pos1.length ≠ 0 →
      i < m.if_pos1.length ∧ i < m.if_pos2.length ∧ i < m.if_pos3.length) :
    ∃ s, posLine m i = .ok s := by
  refine okE_exists _ ?_
  by_cases hip : m.if_pos1.length = 0
  · simp only [posLine,
      getE_of_get? (get?_eq_some_getD m.atom_type i hi),
      getE_of_get? (get?_eq_some_getD m.x i (by omega)),
      getE_of_get? (get?_eq_some_getD m.y i (by omega)),
      getE_of_get? (get?_eq_some_getD m.z i (by omega)), ok_bind, if_pos hip, okE]
  · obtain ⟨hp1, hp2, hp3⟩ := hifp hip
    simp only [posLine,
      getE_of_get? (get?_eq_some_getD m.atom_type i hi),
      getE_of_get? (get?_eq_some_getD m.x i (by omega)),
      getE_of_get? (get?_eq_some_getD m.y i (by omega)),
      getE_of_get? (get?_eq_some_getD m.z i (by omega)),
      getE_of_get? (get?_eq_some_getD m.if_pos1 i hp1),
      getE_of_get? (get?_eq_some_getD m.if_pos2 i hp2),
      getE_of_get? (get?_eq_some_getD m.if_pos3 i hp3), ok_bind, if_neg hip, okE]

theorem posCard_ok (m : Calc)
    (hx : m.atom_type.length ≤ m.x.length) (hy : m.atom_type.length ≤ m.y.length)
    (hz : m.atom_type.length ≤ m.z.length)
    (hifp : m.if_pos1 ≠ [] → m.atom_type.length ≤ m.if_pos1.length ∧
      m.atom_type.length ≤ m.if_pos2.length ∧ m.atom_type.length ≤ m.if_pos3.length) :
    ∃ s, posCard m = .ok s := by
  refine joinE_ok_of_forall _ _ (fun i hi => ?_)
  have hilt := List.mem_range.mp hi
  refine posLine_ok_of_cover m i hilt hx hy hz (fun hip => ?_)
  obtain ⟨g1, g2, g3⟩ := hifp (by
    intro hnil
    exact hip (by rw [hnil]; rfl))
  exact ⟨by omega, by omega, by omega⟩

theorem posCard_error (m : Calc)
    (hne : m.if_pos1 ≠ []) (hlt : m.if_pos1.length < m.atom_type.length)
    (hp2 : m.if_pos1.length ≤ m.if_pos2.length)
    (hp3 : m.if_pos1.length ≤ m.if_pos3.length)
    (hx : m.atom_type.length ≤ m.x.length) (hy : m.atom_type.length ≤ m.y.length)
    (hz : m.atom_type.length ≤ m.z.length) :
    posCard m = .error .indexError := by
  have hip : m.if_pos1.length ≠ 0 := fun h0 => hne (List.length_eq_zero.mp h0)
  obtain ⟨l2, hl2⟩ := range_split m.atom_type.length m.if_pos1.length hlt
  unfold posCard
  rw [hl2]
  refine joinE_error_at (posLine m) _ _ _ _ (fun i hi => ?_) ?_
  · have hilt := List.mem_range.mp hi
    exact posLine_ok_of_cover m i (by omega) hx hy hz
      (fun _ => ⟨by omega, by omega, by omega⟩)
  · have hnone : m.if_pos1.get? m.if_pos1.length = none :=
      List.get?_eq_none.mpr (le_refl _)
    have hnoneE : getE m.if_pos1 m.if_pos1.length = .error .indexError := by
      unfold getE
      rw [hnone]
      rfl
    simp only [posLine,
      getE_of_get? (get?_eq_some_getD m.atom_type m.if_pos1.length hlt),
      getE_of_get? (get?_eq_some_getD m.x m.if_pos1.length (by omega)),
      getE_of_get? (get?_eq_some_getD m.y m.if_pos1.length (by omega)),
      getE_of_get? (get?_eq_some_getD m.z m.if_pos1.length (by omega)),
      ok_bind, if_neg hip, hnoneE, error_bind]

theorem kCard_ok (m : Calc)
    (hk : m.k_points_type ≠ "gamma" → m.k_points_type ≠ "automatic" →
      m.wk.length ≤ m.kx.length ∧ m.wk.length ≤ m.ky.length ∧
      m.wk.length ≤ m.kz.length) :
    ∃ s, kCard m = .ok s := by
  refine okE_exists _ ?_
  by_cases hg : m.k_points_type = "gamma"
  · simp [kCard, hg, okE]
  · by_cases ha : m.k_points_type = "automatic"
    · simp [kCard, hg, ha, okE]
    · obtain ⟨hkx, hky, hkz⟩ := hk hg ha
      obtain ⟨sb, hsb⟩ := joinE_ok_of_forall (kpointLine m) (List.range m.wk.length)
        (fun i hi => by
          have hilt := List.mem_range.mp hi
          refine okE_exists _ ?_
          simp only [kpointLine,
            getE_of_get? (get?_eq_some_getD m.kx i (by omega)),
            getE_of_get? (get?_eq_some_getD m.ky i (by omega)),
            getE_of_get? (get?_eq_some_getD m.kz i (by omega)),
            getE_of_get? (get?_eq_some_getD m.wk i hilt), ok_bind, okE])
      simp only [kCard, if_neg ha, hsb, ok_bind, if_pos hg, okE]

/-! ### Scanner step lemmas -/

theorem stepOut_lattice (s : OS) (t2 t5 sp : String) (p : ℚ)
    (hp : pyFloat sp = .ok p) :
    stepOut s ["lattice", "parameter", t2, "=", sp, t5] =
      .ok { s with a0 := some (p * bohr2angs) } := by
  have g : getE ["lattice", "parameter", t2, "=", sp, t5] 4 = .ok sp := rfl
  unfold stepOut
  rw [if_neg (fun h => absurd h.2 (show ¬("lattice" = "!") by decide)),
    if_neg (fun h => absurd h.2.1 (show ¬(lowStr "lattice" = "the") by decide)),
    if_neg (fun h => absurd h.2 (show ¬("parameter" = "magnetization") by decide)),
    if_pos ⟨show (5 : ℕ) ≤ 6 by decide, show lowStr "lattice" = "lattice" by decide,
      show lowStr "parameter" = "parameter" by decide⟩]
  rw [g, ok_bind, hp, ok_bind]

theorem stepOut_crystal (s : OS) :
    stepOut s ["crystal", "axes:"] =
      .ok { s with nextcellpar := true, v1 := [], v2 := [], v3 := [] } := by
  unfold stepOut
  rw [if_neg (by decide), if_neg (by decide), if_neg (by decide),
    if_neg (by decide), if_neg (by decide), if_pos (by decide)]

theorem stepOut_vec1 (s : OS) (t0 sx sy sz : String) (x y z a : ℚ)
    (ht0 : ¬(t0 = "!")) (hflag : s.nextcellpar = true) (hi : s.i = 0)
    (ha0 : s.a0 = some a)
    (hx : pyFloat sx = .ok x) (hy : pyFloat sy = .ok y) (hz : pyFloat sz = .ok z) :
    stepOut s [t0, "=", "(", sx, sy, sz, ")"] =
      .ok { s with v1 := s.v1 ++ [x * a, y * a, z * a], i := s.i + 1 } := by
  have g3 : getFlScaled [t0, "=", "(", sx, sy, sz, ")"] 3 s.a0 = .ok (x * a) := by
    unfold getFlScaled
    rw [show getE [t0, "=", "(", sx, sy, sz, ")"] 3 = .ok sx from rfl, ok_bind,
      hx, ok_bind, ha0]
  have g4 : getFlScaled [t0, "=", "(", sx, sy, sz, ")"] 4 s.a0 = .ok (y * a) := by
    unfold getFlScaled
    rw [show getE [t0, "=", "(", sx, sy, sz, ")"] 4 = .ok sy from rfl, ok_bind,
      hy, ok_bind, ha0]
  have g5 : getFlScaled [t0, "=", "(", sx, sy, sz, ")"] 5 s.a0 = .ok (z * a) := by
    unfold getFlScaled
    rw [show getE [t0, "=", "(", sx, sy, sz, ")"] 5 = .ok sz from rfl, ok_bind,
      hz, ok_bind, ha0]
  unfold stepOut
  rw [if_neg (fun h => ht0 h.2),
    if_neg (fun h => absurd h.2.2.1 (show ¬(lowStr "=" = "fermi") by decide)),
    if_neg (fun h => absurd h.2 (show ¬("=" = "magnetization") by decide)),
    if_neg (fun h => absurd h.2.2 (show ¬(lowStr "=" = "parameter") by decide)),
    if_neg (fun h => absurd h.2.2 (show ¬(lowStr "=" = "of") by decide)),
    if_neg (fun h => absurd h.2.2 (show ¬(lowStr "=" = "axes:") by decide)),
    if_pos hflag, if_pos hi]
  rw [g3, ok_bind, g4, ok_bind, g5, ok_bind]

theorem stepOut_vec2 (s : OS) (t0 sx sy sz : String) (x y z a : ℚ)
    (ht0 : ¬(t0 = "!")) (hflag : s.nextcellpar = true) (hi0 : ¬(s.i = 0))
    (hi : s.i = 1) (ha0 : s.a0 = some a)
    (hx : pyFloat sx = .ok x) (hy : pyFloat sy = .ok y) (hz : pyFloat sz = .ok z) :
    stepOut s [t0, "=", "(", sx, sy, sz, ")"] =
      .ok { s with v2 := s.v2 ++ [x * a, y * a, z * a], i := s.i + 1 } := by
  have g3 : getFlScaled [t0, "=", "(", sx, sy, sz, ")"] 3 s.a0 = .ok (x * a) := by
    unfold getFlScaled
    rw [show getE [t0, "=", "(", sx, sy, sz, ")"] 3 = .ok sx from rfl, ok_bind,
      hx, ok_bind, ha0]
  have g4 : getFlScaled [t0, "=", "(", sx, sy, sz, ")"] 4 s.a0 = .ok (y * a) := by
    unfold getFlScaled
    rw [show getE [t0, "=", "(", sx, sy, sz, ")"] 4 = .ok sy from rfl, ok_bind,
      hy, ok_bind, ha0]
  have g5 : getFlScaled [t0, "=", "(", sx, sy, sz, ")"] 5 s.a0 = .ok (z * a) := by
    unfold getFlScaled
    rw [show getE [t0, "=", "(", sx, sy, sz, ")"] 5 = .ok sz from rfl, ok_bind,
      hz, ok_bind, ha0]
  unfold stepOut
  rw [if_neg (fun h => ht0 h.2),
    if_neg (fun h => absurd h.2.2.1 (show ¬(lowStr "=" = "fermi") by decide)),
    if_neg (fun h => absurd h.2 (show ¬("=" = "magnetization") by decide)),
    if_neg (fun h => absurd h.2.2 (show ¬(lowStr "=" = "parameter") by decide)),
    if_neg (fun h => absurd h.2.2 (show ¬(lowStr "=" = "of") by decide)),
    if_neg (fun h => absurd h.2.2 (show ¬(lowStr "=" = "axes:") by decide)),
    if_pos hflag, if_neg hi0, if_pos hi]
  rw [g3, ok_bind, g4, ok_bind, g5, ok_bind]

theorem stepOut_vec3 (s : OS) (t0 sx sy sz : String) (x y z a : ℚ)
    (ht0 : ¬(t0 = "!")) (hflag : s.nextcellpar = true) (hi0 : ¬(s.i = 0))
    (hi1 : ¬(s.i = 1)) (hi : s.i = 2) (ha0 : s.a0 = some a)
    (hx : pyFloat sx = .ok x) (hy : pyFloat sy = .ok y) (hz : pyFloat sz = .ok z) :
    stepOut s [t0, "=", "(", sx, sy, sz, ")"] =
      .ok { s with v3 := s.v3 ++ [x * a, y * a, z * a], nextcellpar := false,
                   i := s.i + 1 } := by
  have g3 : getFlScaled [t0, "=", "(", sx, sy, sz, ")"] 3 s.a0 = .ok (x * a) := by
    unfold getFlScaled
    rw [show getE [t0, "=", "(", sx, sy, sz, ")"] 3 = .ok sx from rfl, ok_bind,
      hx, ok_bind, ha0]
  have g4 : getFlScaled [t0, "=", "(", sx, sy, sz, ")"] 4 s.a0 = .ok (y * a) := by
    unfold getFlScaled
    rw [show getE [t0, "=", "(", sx, sy, sz, ")"] 4 = .ok sy from rfl, ok_bind,
      hy, ok_bind, ha0]
  have g5 : getFlScaled [t0, "=", "(", sx, sy, sz, ")"] 5 s.a0 = .ok (z * a) := by
    unfold getFlScaled
    rw [show getE [t0, "=", "(", sx, sy, sz, ")"] 5 = .ok sz from rfl, ok_bind,
      hz, ok_bind, ha0]
  unfold stepOut
  rw [if_neg (fun h => ht0 h.2),
    if_neg (fun h => absurd h.2.2.1 (show ¬(lowStr "=" = "fermi") by decide)),
    if_neg (fun h => absurd h.2 (show ¬("=" = "magnetization") by decide)),
    if_neg (fun h => absurd h.2.2 (show ¬(lowStr "=" = "parameter") by decide)),
    if_neg (fun h => absurd h.2.2 (show ¬(lowStr "=" = "of") by decide)),
    if_neg (fun h => absurd h.2.2 (show ¬(lowStr "=" = "axes:") by decide)),
    if_pos hflag, if_neg hi0, if_neg hi1, if_pos hi]
  rw [g3, ok_bind, g4, ok_bind, g5, ok_bind]

/-! ### Merge and key lemmas for the re-parse simulation -/

theorem lookupD_mergeDict (r c : Dict) (k : String) :
    lookupD (mergeDict r c) k =
      match lookupD c k with
      | none => none
      | some d => some ((lookupD r k).getD d) := by
  induction c with
  | nil => rfl
  | cons kv t ih =>
      obtain ⟨k0, d0⟩ := kv
      by_cases h0 : k0 = k
      · subst h0
        simp [mergeDict, lookupD]
      · simp only [mergeDict, List.map_cons, lookupD, if_neg h0]
        exact ih

theorem mergeDict_lookup_some {r : Dict} {k v : String} (c : Dict)
    (h : lookupD r k = some v) (hc : (lookupD c k).isSome = true) :
    lookupD (mergeDict r c) k = some v := by
  rw [lookupD_mergeDict]
  cases hcc : lookupD c k with
  | none => rw [hcc] at hc; cases hc
  | some d => simp [h]

theorem mergeDict_cons (r : Dict) (k0 d0 : String) (t : Dict) :
    mergeDict r ((k0, d0) :: t) =
      (k0, (lookupD r k0).getD d0) :: mergeDict r t := rfl

theorem updateD_cons_eq (k0 d0 : String) (t : Dict) (k v : String) :
    updateD ((k0, d0) :: t) k v =
      if k0 = k then (k, v) :: t else (k0, d0) :: updateD t k v := rfl

theorem lookupD_isSome_iff_mem_keys (d : Dict) (k : String) :
    (lookupD d k).isSome = true ↔ k ∈ keysD d := by
  induction d with
  | nil => simp [lookupD, keysD]
  | cons kv t ih =>
      obtain ⟨k0, d0⟩ := kv
      simp only [lookupD, keysD, List.map_cons, List.mem_cons]
      by_cases h0 : k0 = k
      · subst h0
        simp
      · rw [if_neg h0]
        constructor
        · intro hs
          exact Or.inr (ih.mp hs)
        · intro hm
          rcases hm with he | hm
          · exact (h0 he.symm).elim
          · exact ih.mpr hm

theorem updateD_isSome_mono (d : Dict) (k v k' : String)
    (h : (lookupD d k').isSome = true) :
    (lookupD (updateD d k v) k').isSome = true := by
  by_cases hk : k' = k
  · subst hk
    rw [lookupD_updateD_self]
    rfl
  · rw [lookupD_updateD_ne _ _ _ _ hk]
    exact h

theorem subD_refl (d : Dict) : subD d d := fun _ h => h

theorem subD_trans {a b c : Dict} (h1 : subD a b) (h2 : subD b c) : subD a c :=
  fun k h => h2 k (h1 k h)

theorem subD_updateD (d : Dict) (k v : String) : subD d (updateD d k v) :=
  fun k' h => updateD_isSome_mono d k v k' h

theorem subCalc_refl (a : Calc) : subCalc a a :=
  ⟨subD_refl _, subD_refl _, subD_refl _, subD_refl _, subD_refl _⟩

theorem subCalc_trans {a b c : Calc} (h1 : subCalc a b) (h2 : subCalc b c) :
    subCalc a c :=
  ⟨subD_trans h1.1 h2.1, subD_trans h1.2.1 h2.2.1, subD_trans h1.2.2.1 h2.2.2.1,
   subD_trans h1.2.2.2.1 h2.2.2.2.1, subD_trans h1.2.2.2.2 h2.2.2.2.2⟩

theorem mem_keysD_updateD {t : Dict} {k v k' : String}
    (h : k' ∈ keysD (updateD t k v)) : k' ∈ keysD t ∨ k' = k := by
  by_cases hk : k' = k
  · exact Or.inr hk
  · left
    rw [← lookupD_isSome_iff_mem_keys] at h ⊢
    rwa [lookupD_updateD_ne _ _ _ _ hk] at h

theorem noDupD_updateD {d : Dict} (k v : String) (h : NoDupD d) :
    NoDupD (updateD d k v) := by
  induction d with
  | nil => simp [updateD, NoDupD, keysD]
  | cons kv t ih =>
      obtain ⟨k0, d0⟩ := kv
      unfold NoDupD keysD at h
      simp only [List.map_cons, List.nodup_cons] at h
      by_cases h0 : k0 = k
      · subst h0
        have hu : updateD ((k0, d0) :: t) k0 v = (k0, v) :: t := by
          rw [updateD_cons_eq, if_pos rfl]
        rw [hu]
        unfold NoDupD keysD
        simp only [List.map_cons, List.nodup_cons]
        exact h
      · have hu : updateD ((k0, d0) :: t) k v = (k0, d0) :: updateD t k v := by
          rw [updateD_cons_eq, if_neg h0]
        rw [hu]
        unfold NoDupD keysD
        simp only [List.map_cons, List.nodup_cons]
        refine ⟨fun hmem => ?_, ih h.2⟩
        have hmem' : k0 ∈ keysD (updateD t k v) := hmem
        rcases mem_keysD_updateD hmem' with hm | hm
        · exact h.1 hm
        · exact h0 hm

theorem mergeDict_congr_of_not_mem {r t : Dict} {k v : String}
    (h : ¬(k ∈ keysD t)) : mergeDict (updateD r k v) t = mergeDict r t := by
  unfold mergeDict
  refine List.map_congr_left (fun kv hkv => ?_)
  have hne : kv.1 ≠ k := by
    intro he
    exact h (by
      rw [← he]
      exact List.mem_map_of_mem (fun p => p.1) hkv)
  rw [lookupD_updateD_ne _ _ _ _ hne]

theorem mergeDict_update {r : Dict} (c : Dict) (k v : String)
    (hc : (lookupD c k).isSome = true) (hnd : NoDupD c) :
    mergeDict (updateD r k v) c = updateD (mergeDict r c) k v := by
  induction c with
  | nil => cases hc
  | cons kv t ih =>
      obtain ⟨k0, d0⟩ := kv
      unfold NoDupD keysD at hnd
      simp only [List.map_cons, List.nodup_cons] at hnd
      by_cases h0 : k0 = k
      · subst h0
        rw [mergeDict_cons, mergeDict_cons, lookupD_updateD_self,
          mergeDict_congr_of_not_mem hnd.1]
        have hr : updateD ((k0, (lookupD r k0).getD d0) :: mergeDict r t) k0 v =
            (k0, v) :: mergeDict r t := by
          rw [updateD_cons_eq, if_pos rfl]
        rw [hr]
        rfl
      · have hc' : (lookupD t k).isSome = true := by
          rwa [lookupD, if_neg h0] at hc
        rw [mergeDict_cons, mergeDict_cons, lookupD_updateD_ne _ _ _ _ h0,
          ih hc' hnd.2]
        have hr : updateD ((k0, (lookupD r k0).getD d0) :: mergeDict r t) k v =
            (k0, (lookupD r k0).getD d0) :: updateD (mergeDict r t) k v := by
          rw [updateD_cons_eq, if_neg h0]
        rw [hr]

theorem mergeDict_nil (c : Dict) : mergeDict [] c = c := by
  induction c with
  | nil => rfl
  | cons kv t ih =>
      obtain ⟨k0, d0⟩ := kv
      rw [mergeDict_cons, ih]
      rfl

theorem lookupD_of_mem_nodup {d : Dict} {k v : String} (hnd : NoDupD d)
    (h : (k, v) ∈ d) : lookupD d k = some v := by
  induction d with
  | nil => cases h
  | cons kv t ih =>
      obtain ⟨k0, d0⟩ := kv
      unfold NoDupD keysD at hnd
      simp only [List.map_cons, List.nodup_cons] at hnd
      rcases List.mem_cons.mp h with he | hm
      · injection he with he1 he2
        subst he1
        subst he2
        simp [lookupD]
      · have hkmem : k ∈ keysD t := by
          rw [← lookupD_isSome_iff_mem_keys, ih hnd.2 hm]
          rfl
        have hk0 : ¬(k0 = k) := fun he => hnd.1 (he ▸ hkmem)
        simp [lookupD, hk0, ih hnd.2 hm]

theorem mergeDict_self {c : Dict} (hnd : NoDupD c) : mergeDict c c = c := by
  unfold mergeDict
  have h : ∀ kv ∈ c, ((kv.1 : String), ((lookupD c kv.1).getD kv.2)) = id kv := by
    intro kv hkv
    rw [lookupD_of_mem_nodup hnd (show (kv.1, kv.2) ∈ c from hkv)]
    rfl
  rw [List.map_congr_left h, List.map_id]

theorem pySplitAux_ne_nil (cs : List Char) :
    ∀ (cur t : List Char), t ∈ pySplitAux cur cs → t ≠ [] := by
  induction cs with
  | nil =>
      intro cur t h
      by_cases hc : cur = []
      · simp [pySplitAux, hc] at h
      · simp only [pySplitAux, if_neg hc, List.mem_singleton] at h
        subst h
        simpa using hc
  | cons c cs ih =>
      intro cur t h
      by_cases hs : isSpaceCh c = true
      · by_cases hc : cur = []
        · simp only [pySplitAux, if_pos hs, if_pos hc] at h
          exact ih [] t h
        · simp only [pySplitAux, if_pos hs, if_neg hc, List.mem_cons] at h
          rcases h with he | hm
          · subst he
            simpa using hc
          · exact ih [] t hm
      · simp only [pySplitAux, if_neg hs] at h
        exact ih (c :: cur) t h

theorem pySplit_tok_ne_empty {line : String} {t : String}
    (h : t ∈ pySplit line) : t ≠ "" := by
  unfold pySplit at h
  obtain ⟨tk, htk, hmk⟩ := List.mem_map.mp h
  subst hmk
  intro he
  exact pySplitAux_ne_nil _ _ _ htk (by
    have := congrArg String.data he
    simpa using this)

theorem getE_token_ne_empty {line : String} {i : ℕ} {t : String}
    (h : getE (pySplit line) i = .ok t) : t ≠ "" := by
  unfold getE at h
  cases hg : (pySplit line).get? i with
  | none => rw [hg] at h; cases h
  | some t' =>
      rw [hg] at h
      injection h with h
      subst h
      exact pySplit_tok_ne_empty (List.get?_mem hg)

theorem bind_ok_elim {α β : Type} {x : Except PyErr α} {f : α → Except PyErr β}
    {b : β} (h : (x >>= f) = .ok b) : ∃ a, x = .ok a ∧ f a = .ok b := by
  cases x with
  | ok a => exact ⟨a, rfl, h⟩
  | error e => simp only [error_bind] at h; exact Except.noConfusion h

theorem nlLine_shape {r : Dict} {t0 : String} {l : List String} {d : Dict}
    (h : nlLine r t0 l = .ok d) :
    ∃ v, getE l 2 = .ok v ∧ d = updateD r t0 (rmCommas v) := by
  unfold nlLine at h
  cases hg : getE l 2 with
  | error e =>
      rw [hg] at h
      simp only [error_bind] at h
      exact Except.noConfusion h
  | ok v =>
      rw [hg] at h
      simp only [ok_bind] at h
      injection h with h
      exact ⟨v, rfl, h.symm⟩

theorem getE_mem {α : Type} {l : List α} {i : ℕ} {a : α}
    (h : getE l i = .ok a) : a ∈ l := by
  unfold getE at h
  cases hg : l.get? i with
  | none => rw [hg] at h; cases h
  | some a' =>
      rw [hg] at h
      injection h with h
      subst h
      exact List.get?_mem hg


theorem stepL_facts {s s' : RS} {l : List String}
    (htok : ∀ t ∈ l, t ≠ "")
    (h : stepL s l = .ok s') :
    subCalc s.c s'.c ∧ (NoDupCalc s.c → NoDupCalc s'.c) ∧ (Inv1 s → Inv1 s') := by
  unfold stepL at h
  cases hg0 : getE l 0 with
  | error e =>
      rw [hg0] at h
      simp only [error_bind] at h
      exact Except.noConfusion h
  | ok t0 =>
      rw [hg0] at h
      simp only [ok_bind] at h
      by_cases b1 : lowStr t0 = "&control"
      · rw [if_pos b1] at h
        injection h with h
        subst h
        exact ⟨subCalc_refl _, fun hd => hd, fun hi hk => hi hk⟩
      rw [if_neg b1] at h
      by_cases b2 : s.iscontrol = true
      · rw [if_pos b2] at h
        by_cases b2a : t0 = "/"
        · rw [if_pos b2a] at h
          injection h with h
          subst h
          exact ⟨subCalc_refl _, fun hd => hd, fun hi hk => hi hk⟩
        · rw [if_neg b2a] at h
          obtain ⟨d, hnl, h⟩ := bind_ok_elim h
          injection h with h
          subst h
          obtain ⟨v, hg2, hd⟩ := nlLine_shape hnl
          subst hd
          exact ⟨⟨subD_updateD _ _ _, subD_refl _, subD_refl _, subD_refl _,
              subD_refl _⟩,
            fun hd => ⟨noDupD_updateD _ _ hd.1, hd.2.1, hd.2.2.1, hd.2.2.2.1,
              hd.2.2.2.2⟩,
            fun hi hk => hi hk⟩
      rw [if_neg b2] at h
      by_cases b3 : lowStr t0 = "&system"
      · rw [if_pos b3] at h
        injection h with h
        subst h
        exact ⟨subCalc_refl _, fun hd => hd, fun hi hk => hi hk⟩
      rw [if_neg b3] at h
      by_cases b4 : s.issystem = true
      · rw [if_pos b4] at h
        by_cases b4a : t0 = "/"
        · rw [if_pos b4a] at h
          injection h with h
          subst h
          exact ⟨subCalc_refl _, fun hd => hd, fun hi hk => hi hk⟩
        · rw [if_neg b4a] at h
          obtain ⟨d, hnl, h⟩ := bind_ok_elim h
          injection h with h
          subst h
          obtain ⟨v, hg2, hd⟩ := nlLine_shape hnl
          subst hd
          exact ⟨⟨subD_refl _, subD_updateD _ _ _, subD_refl _, subD_refl _,
              subD_refl _⟩,
            fun hd => ⟨hd.1, noDupD_updateD _ _ hd.2.1, hd.2.2.1, hd.2.2.2.1,
              hd.2.2.2.2⟩,
            fun hi hk => hi hk⟩
      rw [if_neg b4] at h
      by_cases b5 : lowStr t0 = "&electrons"
      · rw [if_pos b5] at h
        injection h with h
        subst h
        exact ⟨subCalc_refl _, fun hd => hd, fun hi hk => hi hk⟩
      rw [if_neg b5] at h
      by_cases b6 : s.iselectrons = true
      · rw [if_pos b6] at h
        by_cases b6a : t0 = "/"
        · rw [if_pos b6a] at h
          injection h with h
          subst h
          exact ⟨subCalc_refl _, fun hd => hd, fun hi hk => hi hk⟩
        · rw [if_neg b6a] at h
          obtain ⟨d, hnl, h⟩ := bind_ok_elim h
          injection h with h
          subst h
          obtain ⟨v, hg2, hd⟩ := nlLine_shape hnl
          subst hd
          exact ⟨⟨subD_refl _, subD_refl _, subD_updateD _ _ _, subD_refl _,
              subD_refl _⟩,
            fun hd => ⟨hd.1, hd.2.1, noDupD_updateD _ _ hd.2.2.1, hd.2.2.2.1,
              hd.2.2.2.2⟩,
            fun hi hk => hi hk⟩
      rw [if_neg b6] at h
      by_cases b7 : lowStr t0 = "&ions"
      · rw [if_pos b7] at h
        injection h with h
        subst h
        exact ⟨subCalc_refl _, fun hd => hd, fun hi hk => hi hk⟩
      rw [if_neg b7] at h
      by_cases b8 : s.isions = true
      · rw [if_pos b8] at h
        by_cases b8a : t0 = "/"
        · rw [if_pos b8a] at h
          injection h with h
          subst h
          exact ⟨subCalc_refl _, fun hd => hd, fun hi hk => hi hk⟩
        · rw [if_neg b8a] at h
          obtain ⟨d, hnl, h⟩ := bind_ok_elim h
          injection h with h
          subst h
          obtain ⟨v, hg2, hd⟩ := nlLine_shape hnl
          subst hd
          exact ⟨⟨subD_refl _, subD_refl _, subD_refl _, subD_updateD _ _ _,
              subD_refl _⟩,
            fun hd => ⟨hd.1, hd.2.1, hd.2.2.1, noDupD_updateD _ _ hd.2.2.2.1,
              hd.2.2.2.2⟩,
            fun hi hk => hi hk⟩
      rw [if_neg b8] at h
      by_cases b9 : lowStr t0 = "&cell"
      · rw [if_pos b9] at h
        injection h with h
        subst h
        exact ⟨subCalc_refl _, fun hd => hd, fun hi hk => hi hk⟩
      rw [if_neg b9] at h
      by_cases b10 : s.iscell = true
      · rw [if_pos b10] at h
        by_cases b10a : t0 = "/"
        · rw [if_pos b10a] at h
          injection h with h
          subst h
          exact ⟨subCalc_refl _, fun hd => hd, fun hi hk => hi hk⟩
        · rw [if_neg b10a] at h
          obtain ⟨d, hnl, h⟩ := bind_ok_elim h
          injection h with h
          subst h
          obtain ⟨v, hg2, hd⟩ := nlLine_shape hnl
          subst hd
          exact ⟨⟨subD_refl _, subD_refl _, subD_refl _, subD_refl _,
              subD_updateD _ _ _⟩,
            fun hd => ⟨hd.1, hd.2.1, hd.2.2.1, hd.2.2.2.1,
              noDupD_updateD _ _ hd.2.2.2.2⟩,
            fun hi hk => hi hk⟩
      rw [if_neg b10] at h
      by_cases b11 : lowStr t0 = "cell_parameters"
      · rw [if_pos b11] at h
        cases hg1 : l.get? 1 with
        | none =>
            simp only [hg1] at h
            injection h with h
            subst h
            exact ⟨subCalc_refl _, fun hd => hd, fun hi hk => hi hk⟩
        | some u =>
            simp only [hg1] at h
            by_cases hlen : l.length = 2
            · rw [if_pos hlen] at h
              injection h with h
              subst h
              exact ⟨subCalc_refl _, fun hd => hd, fun hi hk => hi hk⟩
            · rw [if_neg hlen] at h
              injection h with h
              subst h
              exact ⟨subCalc_refl _, fun hd => hd, fun hi hk => hi hk⟩
      rw [if_neg b11] at h
      by_cases b12 : s.iscellparameters = true
      · rw [if_pos b12] at h
        by_cases bj0 : s.j = 0
        · rw [if_pos bj0] at h
          obtain ⟨qa, hqa, h⟩ := bind_ok_elim h
          obtain ⟨b, hgb, h⟩ := bind_ok_elim h
          obtain ⟨qb, hqb, h⟩ := bind_ok_elim h
          obtain ⟨c0, hgc, h⟩ := bind_ok_elim h
          obtain ⟨qc, hqc, h⟩ := bind_ok_elim h
          injection h with h
          subst h
          exact ⟨subCalc_refl _, fun hd => hd, fun hi hk => hi hk⟩
        rw [if_neg bj0] at h
        by_cases bj1 : s.j = 1
        · rw [if_pos bj1] at h
          obtain ⟨qa, hqa, h⟩ := bind_ok_elim h
          obtain ⟨b, hgb, h⟩ := bind_ok_elim h
          obtain ⟨qb, hqb, h⟩ := bind_ok_elim h
          obtain ⟨c0, hgc, h⟩ := bind_ok_elim h
          obtain ⟨qc, hqc, h⟩ := bind_ok_elim h
          injection h with h
          subst h
          exact ⟨subCalc_refl _, fun hd => hd, fun hi hk => hi hk⟩
        rw [if_neg bj1] at h
        by_cases bj2 : s.j = 2
        · rw [if_pos bj2] at h
          obtain ⟨qa, hqa, h⟩ := bind_ok_elim h
          obtain ⟨b, hgb, h⟩ := bind_ok_elim h
          obtain ⟨qb, hqb, h⟩ := bind_ok_elim h
          obtain ⟨c0, hgc, h⟩ := bind_ok_elim h
          obtain ⟨qc, hqc, h⟩ := bind_ok_elim h
          injection h with h
          subst h
          exact ⟨subCalc_refl _, fun hd => hd, fun hi hk => hi hk⟩
        · rw [if_neg bj2] at h
          injection h with h
          subst h
          exact ⟨subCalc_refl _, fun hd => hd, fun hi hk => hi hk⟩
      rw [if_neg b12] at h
      by_cases b13 : lowStr t0 = "atomic_species"
      · rw [if_pos b13] at h
        injection h with h
        subst h
        exact ⟨subCalc_refl _, fun hd => hd, fun hi hk => hi hk⟩
      rw [if_neg b13] at h
      by_cases b14 : s.isatomicspecies = true
      · rw [if_pos b14] at h
        obtain ⟨m1, hm1, h⟩ := bind_ok_elim h
        obtain ⟨m2, hm2, h⟩ := bind_ok_elim h
        obtain ⟨nt, hnt, h⟩ := bind_ok_elim h
        obtain ⟨ntv, hntv, h⟩ := bind_ok_elim h
        by_cases hj : s.j + 1 = ntv
        · rw [if_pos hj] at h
          injection h with h
          subst h
          exact ⟨subCalc_refl _, fun hd => hd, fun hi hk => hi hk⟩
        · rw [if_neg hj] at h
          injection h with h
          subst h
          exact ⟨subCalc_refl _, fun hd => hd, fun hi hk => hi hk⟩
      rw [if_neg b14] at h
      by_cases b15 : lowStr t0 = "atomic_positions"
      · rw [if_pos b15] at h
        cases hg1 : l.get? 1 with
        | none =>
            simp only [hg1] at h
            injection h with h
            subst h
            exact ⟨subCalc_refl _, fun hd => hd, fun hi hk => hi hk⟩
        | some u =>
            simp only [hg1] at h
            by_cases hlen : l.length = 2
            · rw [if_pos hlen] at h
              injection h with h
              subst h
              exact ⟨subCalc_refl _, fun hd => hd, fun hi hk => hi hk⟩
            · rw [if_neg hlen] at h
              injection h with h
              subst h
              exact ⟨subCalc_refl _, fun hd => hd, fun hi hk => hi hk⟩
      rw [if_neg b15] at h
      by_cases b16 : s.isatomicpositions = true
      · rw [if_pos b16] at h
        obtain ⟨sx, hsx, h⟩ := bind_ok_elim h
        obtain ⟨qx, hqx, h⟩ := bind_ok_elim h
        obtain ⟨sy, hsy, h⟩ := bind_ok_elim h
        obtain ⟨qy, hqy, h⟩ := bind_ok_elim h
        obtain ⟨sz, hsz, h⟩ := bind_ok_elim h
        obtain ⟨qz, hqz, h⟩ := bind_ok_elim h
        by_cases hlen : l.length = 7
        · rw [if_pos hlen] at h
          obtain ⟨p1, hp1, h⟩ := bind_ok_elim h
          obtain ⟨i1, hi1, h⟩ := bind_ok_elim h
          obtain ⟨p2, hp2, h⟩ := bind_ok_elim h
          obtain ⟨i2, hi2, h⟩ := bind_ok_elim h
          obtain ⟨p3, hp3, h⟩ := bind_ok_elim h
          obtain ⟨i3, hi3, h⟩ := bind_ok_elim h
          obtain ⟨na, hna, h⟩ := bind_ok_elim h
          obtain ⟨nav, hnav, h⟩ := bind_ok_elim h
          by_cases hj : s.j + 1 = nav
          · rw [if_pos hj] at h
            injection h with h
            subst h
            exact ⟨subCalc_refl _, fun hd => hd, fun hi hk => hi hk⟩
          · rw [if_neg hj] at h
            injection h with h
            subst h
            exact ⟨subCalc_refl _, fun hd => hd, fun hi hk => hi hk⟩
        · rw [if_neg hlen] at h
          obtain ⟨na, hna, h⟩ := bind_ok_elim h
          obtain ⟨nav, hnav, h⟩ := bind_ok_elim h
          by_cases hj : s.j + 1 = nav
          · rw [if_pos hj] at h
            injection h with h
            subst h
            exact ⟨subCalc_refl _, fun hd => hd, fun hi hk => hi hk⟩
          · rw [if_neg hj] at h
            injection h with h
            subst h
            exact ⟨subCalc_refl _, fun hd => hd, fun hi hk => hi hk⟩
      rw [if_neg b16] at h
      by_cases b17 : lowStr t0 = "k_points"
      · rw [if_pos b17] at h
        obtain ⟨t1, hg1, h⟩ := bind_ok_elim h
        injection h with h
        subst h
        exact ⟨subCalc_refl _, fun hd => hd, fun _ _ => htok t1 (getE_mem hg1)⟩
      rw [if_neg b17] at h
      by_cases b18 : s.iskpoints = true
      · rw [if_pos b18] at h
        by_cases bauto : s.c.k_points_type = "automatic"
        · rw [if_pos bauto] at h
          obtain ⟨i0, hi0, h⟩ := bind_ok_elim h
          obtain ⟨a1, ha1, h⟩ := bind_ok_elim h
          obtain ⟨i1, hi1, h⟩ := bind_ok_elim h
          obtain ⟨a2, ha2, h⟩ := bind_ok_elim h
          obtain ⟨i2, hi2, h⟩ := bind_ok_elim h
          obtain ⟨a3, ha3, h⟩ := bind_ok_elim h
          obtain ⟨i3, hi3, h⟩ := bind_ok_elim h
          obtain ⟨a4, ha4, h⟩ := bind_ok_elim h
          obtain ⟨i4, hi4, h⟩ := bind_ok_elim h
          obtain ⟨a5, ha5, h⟩ := bind_ok_elim h
          obtain ⟨i5, hi5, h⟩ := bind_ok_elim h
          injection h with h
          subst h
          exact ⟨subCalc_refl _, fun hd => hd, fun hi hk => hi hk⟩
        rw [if_neg bauto] at h
        by_cases bj0 : s.j = 0
        · rw [if_pos bj0] at h
          obtain ⟨n, hn, h⟩ := bind_ok_elim h
          injection h with h
          subst h
          exact ⟨subCalc_refl _, fun hd => hd, fun hi hk => hi hk⟩
        · rw [if_neg bj0] at h
          obtain ⟨qx, hqx, h⟩ := bind_ok_elim h
          obtain ⟨a1, ha1, h⟩ := bind_ok_elim h
          obtain ⟨qy, hqy, h⟩ := bind_ok_elim h
          obtain ⟨a2, ha2, h⟩ := bind_ok_elim h
          obtain ⟨qz, hqz, h⟩ := bind_ok_elim h
          obtain ⟨a3, ha3, h⟩ := bind_ok_elim h
          obtain ⟨qw, hqw, h⟩ := bind_ok_elim h
          cases hnk : s.nk with
          | none =>
              simp only [hnk] at h
              exact Except.noConfusion h
          | some n =>
              simp only [hnk] at h
              by_cases hgt : s.j + 1 > n
              · rw [if_pos hgt] at h
                injection h with h
                subst h
                exact ⟨subCalc_refl _, fun hd => hd,
                  fun _ hk => absurd hk Bool.false_ne_true⟩
              · rw [if_neg hgt] at h
                injection h with h
                subst h
                exact ⟨subCalc_refl _, fun hd => hd, fun hi hk => hi hk⟩
      · rw [if_neg b18] at h
        injection h with h
        subst h
        exact ⟨subCalc_refl _, fun hd => hd, fun hi hk => hi hk⟩

theorem getD0_ok_iff {d : Dict} {k v : String} :
    getD0 d k = .ok v ↔ lookupD d k = some v := by
  unfold getD0
  cases h : lookupD d k with
  | none => simp [optE]
  | some a => simp [optE]

set_option maxHeartbeats 1600000 in
theorem stepL_sim {s s' : RS} {l : List String} {c1 : Calc}
    (htok : ∀ t ∈ l, t ≠ "")
    (h : stepL s l = .ok s')
    (hsub : subCalc s'.c c1) (hnodup : NoDupCalc c1) (hinv : Inv1 s) :
    stepL (mergeRS s c1) l = .ok (mergeRS s' c1) := by
  unfold stepL at h ⊢
  cases hg0 : getE l 0 with
  | error e =>
      rw [hg0] at h
      simp only [error_bind] at h
      exact Except.noConfusion h
  | ok t0 =>
      rw [hg0] at h
      simp only [ok_bind] at h
      simp only [ok_bind]
      simp only [mergeRS, mergeCalc]
      by_cases b1 : lowStr t0 = "&control"
      · rw [if_pos b1] at h ⊢
        injection h with h
        subst h
        rfl
      rw [if_neg b1] at h ⊢
      by_cases b2 : s.iscontrol = true
      · rw [if_pos b2] at h ⊢
        by_cases b2a : t0 = "/"
        · rw [if_pos b2a] at h ⊢
          injection h with h
          subst h
          rfl
        · rw [if_neg b2a] at h ⊢
          obtain ⟨d, hnl, h⟩ := bind_ok_elim h
          injection h with h
          subst h
          obtain ⟨v, hg2, hd⟩ := nlLine_shape hnl
          subst hd
          have hc : (lookupD c1.control t0).isSome = true :=
            hsub.1 t0 (show (lookupD (updateD s.c.control t0 (rmCommas v)) t0).isSome = true
              by rw [lookupD_updateD_self]; rfl)
          simp only [nlLine, hg2, ok_bind]
          rw [mergeDict_update c1.control t0 (rmCommas v) hc hnodup.1]
      rw [if_neg b2] at h ⊢
      by_cases b3 : lowStr t0 = "&system"
      · rw [if_pos b3] at h ⊢
        injection h with h
        subst h
        rfl
      rw [if_neg b3] at h ⊢
      by_cases b4 : s.issystem = true
      · rw [if_pos b4] at h ⊢
        by_cases b4a : t0 = "/"
        · rw [if_pos b4a] at h ⊢
          injection h with h
          subst h
          rfl
        · rw [if_neg b4a] at h ⊢
          obtain ⟨d, hnl, h⟩ := bind_ok_elim h
          injection h with h
          subst h
          obtain ⟨v, hg2, hd⟩ := nlLine_shape hnl
          subst hd
          have hc : (lookupD c1.system t0).isSome = true :=
            hsub.2.1 t0 (show (lookupD (updateD s.c.system t0 (rmCommas v)) t0).isSome = true
              by rw [lookupD_updateD_self]; rfl)
          simp only [nlLine, hg2, ok_bind]
          rw [mergeDict_update c1.system t0 (rmCommas v) hc hnodup.2.1]
      rw [if_neg b4] at h ⊢
      by_cases b5 : lowStr t0 = "&electrons"
      · rw [if_pos b5] at h ⊢
        injection h with h
        subst h
        rfl
      rw [if_neg b5] at h ⊢
      by_cases b6 : s.iselectrons = true
      · rw [if_pos b6] at h ⊢
        by_cases b6a : t0 = "/"
        · rw [if_pos b6a] at h ⊢
          injection h with h
          subst h
          rfl
        · rw [if_neg b6a] at h ⊢
          obtain ⟨d, hnl, h⟩ := bind_ok_elim h
          injection h with h
          subst h
          obtain ⟨v, hg2, hd⟩ := nlLine_shape hnl
          subst hd
          have hc : (lookupD c1.electrons t0).isSome = true :=
            hsub.2.2.1 t0 (show (lookupD (updateD s.c.electrons t0 (rmCommas v)) t0).isSome = true
              by rw [lookupD_updateD_self]; rfl)
          simp only [nlLine, hg2, ok_bind]
          rw [mergeDict_update c1.electrons t0 (rmCommas v) hc hnodup.2.2.1]
      rw [if_neg b6] at h ⊢
      by_cases b7 : lowStr t0 = "&ions"
      · rw [if_pos b7] at h ⊢
        injection h with h
        subst h
        rfl
      rw [if_neg b7] at h ⊢
      by_cases b8 : s.isions = true
      · rw [if_pos b8] at h ⊢
        by_cases b8a : t0 = "/"
        · rw [if_pos b8a] at h ⊢
          injection h with h
          subst h
          rfl
        · rw [if_neg b8a] at h ⊢
          obtain ⟨d, hnl, h⟩ := bind_ok_elim h
          injection h with h
          subst h
          obtain ⟨v, hg2, hd⟩ := nlLine_shape hnl
          subst hd
          have hc : (lookupD c1.ions t0).isSome = true :=
            hsub.2.2.2.1 t0 (show (lookupD (updateD s.c.ions t0 (rmCommas v)) t0).isSome = true
              by rw [lookupD_updateD_self]; rfl)
          simp only [nlLine, hg2, ok_bind]
          rw [mergeDict_update c1.ions t0 (rmCommas v) hc hnodup.2.2.2.1]
      rw [if_neg b8] at h ⊢
      by_cases b9 : lowStr t0 = "&cell"
      · rw [if_pos b9] at h ⊢
        injection h with h
        subst h
        rfl
      rw [if_neg b9] at h ⊢
      by_cases b10 : s.iscell = true
      · rw [if_pos b10] at h ⊢
        by_cases b10a : t0 = "/"
        · rw [if_pos b10a] at h ⊢
          injection h with h
          subst h
          rfl
        · rw [if_neg b10a] at h ⊢
          obtain ⟨d, hnl, h⟩ := bind_ok_elim h
          injection h with h
          subst h
          obtain ⟨v, hg2, hd⟩ := nlLine_shape hnl
          subst hd
          have hc : (lookupD c1.cell t0).isSome = true :=
            hsub.2.2.2.2 t0 (show (lookupD (updateD s.c.cell t0 (rmCommas v)) t0).isSome = true
              by rw [lookupD_updateD_self]; rfl)
          simp only [nlLine, hg2, ok_bind]
          rw [mergeDict_update c1.cell t0 (rmCommas v) hc hnodup.2.2.2.2]
      rw [if_neg b10] at h ⊢
      by_cases b11 : lowStr t0 = "cell_parameters"
      · rw [if_pos b11] at h ⊢
        cases hg1 : l.get? 1 with
        | none =>
            simp only [hg1] at h
            injection h with h
            subst h
            rfl
        | some u =>
            simp only [hg1] at h
            dsimp only
            by_cases hlen : l.length = 2
            · rw [if_pos hlen] at h ⊢
              injection h with h
              subst h
              have hu : u ≠ "" := htok u (List.get?_mem hg1)
              rw [show mergeS u c1.cell_parameters_units = u from by
                unfold mergeS; rw [if_neg hu]]
            · rw [if_neg hlen] at h ⊢
              injection h with h
              subst h
              rfl
      rw [if_neg b11] at h ⊢
      by_cases b12 : s.iscellparameters = true
      · rw [if_pos b12] at h ⊢
        by_cases bj0 : s.j = 0
        · rw [if_pos bj0] at h ⊢
          obtain ⟨qa, hqa, h⟩ := bind_ok_elim h
          obtain ⟨b, hgb, h⟩ := bind_ok_elim h
          obtain ⟨qb, hqb, h⟩ := bind_ok_elim h
          obtain ⟨c0, hgc, h⟩ := bind_ok_elim h
          obtain ⟨qc, hqc, h⟩ := bind_ok_elim h
          injection h with h
          subst h
          simp only [hqa, hgb, hqb, hgc, hqc, ok_bind, List.append_assoc]
        rw [if_neg bj0] at h ⊢
        by_cases bj1 : s.j = 1
        · rw [if_pos bj1] at h ⊢
          obtain ⟨qa, hqa, h⟩ := bind_ok_elim h
          obtain ⟨b, hgb, h⟩ := bind_ok_elim h
          obtain ⟨qb, hqb, h⟩ := bind_ok_elim h
          obtain ⟨c0, hgc, h⟩ := bind_ok_elim h
          obtain ⟨qc, hqc, h⟩ := bind_ok_elim h
          injection h with h
          subst h
          simp only [hqa, hgb, hqb, hgc, hqc, ok_bind, List.append_assoc]
        rw [if_neg bj1] at h ⊢
        by_cases bj2 : s.j = 2
        · rw [if_pos bj2] at h ⊢
          obtain ⟨qa, hqa, h⟩ := bind_ok_elim h
          obtain ⟨b, hgb, h⟩ := bind_ok_elim h
          obtain ⟨qb, hqb, h⟩ := bind_ok_elim h
          obtain ⟨c0, hgc, h⟩ := bind_ok_elim h
          obtain ⟨qc, hqc, h⟩ := bind_ok_elim h
          injection h with h
          subst h
          simp only [hqa, hgb, hqb, hgc, hqc, ok_bind, List.append_assoc]
        · rw [if_neg bj2] at h ⊢
          injection h with h
          subst h
          rfl
      rw [if_neg b12] at h ⊢
      by_cases b13 : lowStr t0 = "atomic_species"
      · rw [if_pos b13] at h ⊢
        injection h with h
        subst h
        rfl
      rw [if_neg b13] at h ⊢
      by_cases b14 : s.isatomicspecies = true
      · rw [if_pos b14] at h ⊢
        obtain ⟨m1, hm1, h⟩ := bind_ok_elim h
        obtain ⟨m2, hm2, h⟩ := bind_ok_elim h
        obtain ⟨nt, hnt, h⟩ := bind_ok_elim h
        obtain ⟨ntv, hntv, h⟩ := bind_ok_elim h
        have hlk : lookupD s.c.system "ntyp" = some nt := getD0_ok_iff.mp hnt
        by_cases hj : s.j + 1 = ntv
        · rw [if_pos hj] at h
          injection h with h
          subst h
          have hc1 : (lookupD c1.system "ntyp").isSome = true :=
            hsub.2.1 "ntyp" (show (lookupD s.c.system "ntyp").isSome = true by rw [hlk]; rfl)
          have hnt' : getD0 (mergeDict s.c.system c1.system) "ntyp" = .ok nt :=
            getD0_ok_iff.mpr (mergeDict_lookup_some c1.system hlk hc1)
          simp only [hm1, hm2, hnt', hntv, ok_bind]
          rw [if_pos hj]
          simp only [List.append_assoc]
        · rw [if_neg hj] at h
          injection h with h
          subst h
          have hc1 : (lookupD c1.system "ntyp").isSome = true :=
            hsub.2.1 "ntyp" (show (lookupD s.c.system "ntyp").isSome = true by rw [hlk]; rfl)
          have hnt' : getD0 (mergeDict s.c.system c1.system) "ntyp" = .ok nt :=
            getD0_ok_iff.mpr (mergeDict_lookup_some c1.system hlk hc1)
          simp only [hm1, hm2, hnt', hntv, ok_bind]
          rw [if_neg hj]
          simp only [List.append_assoc]
      rw [if_neg b14] at h ⊢
      by_cases b15 : lowStr t0 = "atomic_positions"
      · rw [if_pos b15] at h ⊢
        cases hg1 : l.get? 1 with
        | none =>
            simp only [hg1] at h
            injection h with h
            subst h
            rfl
        | some u =>
            simp only [hg1] at h
            dsimp only
            by_cases hlen : l.length = 2
            · rw [if_pos hlen] at h ⊢
              injection h with h
              subst h
              have hu : u ≠ "" := htok u (List.get?_mem hg1)
              rw [show mergeS u c1.atomic_positions_units = u from by
                unfold mergeS; rw [if_neg hu]]
            · rw [if_neg hlen] at h ⊢
              injection h with h
              subst h
              rfl
      rw [if_neg b15] at h ⊢
      by_cases b16 : s.isatomicpositions = true
      · rw [if_pos b16] at h ⊢
        obtain ⟨sx, hsx, h⟩ := bind_ok_elim h
        obtain ⟨qx, hqx, h⟩ := bind_ok_elim h
        obtain ⟨sy, hsy, h⟩ := bind_ok_elim h
        obtain ⟨qy, hqy, h⟩ := bind_ok_elim h
        obtain ⟨sz, hsz, h⟩ := bind_ok_elim h
        obtain ⟨qz, hqz, h⟩ := bind_ok_elim h
        simp only [hsx, hqx, hsy, hqy, hsz, hqz, ok_bind]
        by_cases hlen : l.length = 7
        · rw [if_pos hlen] at h ⊢
          obtain ⟨p1, hp1, h⟩ := bind_ok_elim h
          obtain ⟨i1, hi1, h⟩ := bind_ok_elim h
          obtain ⟨p2, hp2, h⟩ := bind_ok_elim h
          obtain ⟨i2, hi2, h⟩ := bind_ok_elim h
          obtain ⟨p3, hp3, h⟩ := bind_ok_elim h
          obtain ⟨i3, hi3, h⟩ := bind_ok_elim h
          obtain ⟨na, hna, h⟩ := bind_ok_elim h
          obtain ⟨nav, hnav, h⟩ := bind_ok_elim h
          have hlk : lookupD s.c.system "nat" = some na := getD0_ok_iff.mp hna
          by_cases hj : s.j + 1 = nav
          · rw [if_pos hj] at h
            injection h with h
            subst h
            have hc1 : (lookupD c1.system "nat").isSome = true :=
              hsub.2.1 "nat" (show (lookupD s.c.system "nat").isSome = true by rw [hlk]; rfl)
            have hna' : getD0 (mergeDict s.c.system c1.system) "nat" = .ok na :=
              getD0_ok_iff.mpr (mergeDict_lookup_some c1.system hlk hc1)
            simp only [hp1, hi1, hp2, hi2, hp3, hi3, hna', hnav, ok_bind]
            rw [if_pos hj]
            simp only [List.append_assoc]
          · rw [if_neg hj] at h
            injection h with h
            subst h
            have hc1 : (lookupD c1.system "nat").isSome = true :=
              hsub.2.1 "nat" (show (lookupD s.c.system "nat").isSome = true by rw [hlk]; rfl)
            have hna' : getD0 (mergeDict s.c.system c1.system) "nat" = .ok na :=
              getD0_ok_iff.mpr (mergeDict_lookup_some c1.system hlk hc1)
            simp only [hp1, hi1, hp2, hi2, hp3, hi3, hna', hnav, ok_bind]
            rw [if_neg hj]
            simp only [List.append_assoc]
        · rw [if_neg hlen] at h ⊢
          obtain ⟨na, hna, h⟩ := bind_ok_elim h
          obtain ⟨nav, hnav, h⟩ := bind_ok_elim h
          have hlk : lookupD s.c.system "nat" = some na := getD0_ok_iff.mp hna
          by_cases hj : s.j + 1 = nav
          · rw [if_pos hj] at h
            injection h with h
            subst h
            have hc1 : (lookupD c1.system "nat").isSome = true :=
              hsub.2.1 "nat" (show (lookupD s.c.system "nat").isSome = true by rw [hlk]; rfl)
            have hna' : getD0 (mergeDict s.c.system c1.system) "nat" = .ok na :=
              getD0_ok_iff.mpr (mergeDict_lookup_some c1.system hlk hc1)
            simp only [hna', hnav, ok_bind]
            rw [if_pos hj]
            simp only [List.append_assoc]
          · rw [if_neg hj] at h
            injection h with h
            subst h
            have hc1 : (lookupD c1.system "nat").isSome = true :=
              hsub.2.1 "nat" (show (lookupD s.c.system "nat").isSome = true by rw [hlk]; rfl)
            have hna' : getD0 (mergeDict s.c.system c1.system) "nat" = .ok na :=
              getD0_ok_iff.mpr (mergeDict_lookup_some c1.system hlk hc1)
            simp only [hna', hnav, ok_bind]
            rw [if_neg hj]
            simp only [List.append_assoc]
      rw [if_neg b16] at h ⊢
      by_cases b17 : lowStr t0 = "k_points"
      · rw [if_pos b17] at h ⊢
        obtain ⟨t1, hg1, h⟩ := bind_ok_elim h
        injection h with h
        subst h
        have ht1 : t1 ≠ "" := htok t1 (getE_mem hg1)
        simp only [hg1, ok_bind]
        rw [show mergeS t1 c1.k_points_type = t1 from by
          unfold mergeS; rw [if_neg ht1]]
      rw [if_neg b17] at h ⊢
      by_cases b18 : s.iskpoints = true
      · rw [if_pos b18] at h ⊢
        have hkne : s.c.k_points_type ≠ "" := hinv b18
        have hms : mergeS s.c.k_points_type c1.k_points_type = s.c.k_points_type := by
          unfold mergeS; rw [if_neg hkne]
        rw [hms]
        by_cases bauto : s.c.k_points_type = "automatic"
        · rw [if_pos bauto] at h ⊢
          obtain ⟨i0, hi0, h⟩ := bind_ok_elim h
          obtain ⟨a1, ha1, h⟩ := bind_ok_elim h
          obtain ⟨i1, hi1, h⟩ := bind_ok_elim h
          obtain ⟨a2, ha2, h⟩ := bind_ok_elim h
          obtain ⟨i2, hi2, h⟩ := bind_ok_elim h
          obtain ⟨a3, ha3, h⟩ := bind_ok_elim h
          obtain ⟨i3, hi3, h⟩ := bind_ok_elim h
          obtain ⟨a4, ha4, h⟩ := bind_ok_elim h
          obtain ⟨i4, hi4, h⟩ := bind_ok_elim h
          obtain ⟨a5, ha5, h⟩ := bind_ok_elim h
          obtain ⟨i5, hi5, h⟩ := bind_ok_elim h
          injection h with h
          subst h
          simp only [hi0, ha1, hi1, ha2, hi2, ha3, hi3, ha4, hi4, ha5, hi5,
            ok_bind, mergeO, hms]
        rw [if_neg bauto] at h ⊢
        by_cases bj0 : s.j = 0
        · rw [if_pos bj0] at h ⊢
          obtain ⟨n, hn, h⟩ := bind_ok_elim h
          injection h with h
          subst h
          simp only [hn, ok_bind, hms]
        · rw [if_neg bj0] at h ⊢
          obtain ⟨qx, hqx, h⟩ := bind_ok_elim h
          obtain ⟨a1, ha1, h⟩ := bind_ok_elim h
          obtain ⟨qy, hqy, h⟩ := bind_ok_elim h
          obtain ⟨a2, ha2, h⟩ := bind_ok_elim h
          obtain ⟨qz, hqz, h⟩ := bind_ok_elim h
          obtain ⟨a3, ha3, h⟩ := bind_ok_elim h
          obtain ⟨qw, hqw, h⟩ := bind_ok_elim h
          simp only [hqx, ha1, hqy, ha2, hqz, ha3, hqw, ok_bind]
          cases hnk : s.nk with
          | none =>
              simp only [hnk] at h
              exact Except.noConfusion h
          | some n =>
              simp only [hnk] at h
              dsimp only
              by_cases hgt : s.j + 1 > n
              · rw [if_pos hgt] at h ⊢
                injection h with h
                subst h
                simp only [List.append_assoc, hms]
              · rw [if_neg hgt] at h ⊢
                injection h with h
                subst h
                simp only [List.append_assoc, hms]
      · rw [if_neg b18] at h ⊢
        injection h with h
        subst h
        rfl

theorem runLines_facts {s' : RS} {ls : List String} :
    ∀ s : RS, runLines s ls = .ok s' →
      subCalc s.c s'.c ∧ (NoDupCalc s.c → NoDupCalc s'.c) ∧ (Inv1 s → Inv1 s') := by
  induction ls with
  | nil =>
      intro s h
      injection h with h
      subst h
      exact ⟨subCalc_refl _, fun hd => hd, fun hi => hi⟩
  | cons l ls ih =>
      intro s h
      unfold runLines at h
      cases hstep : step s l with
      | error e =>
          rw [hstep] at h
          exact Except.noConfusion h
      | ok s1 =>
          rw [hstep] at h
          have hf := stepL_facts (fun t ht => pySplit_tok_ne_empty ht) hstep
          have hr := ih s1 h
          exact ⟨subCalc_trans hf.1 hr.1, fun hd => hr.2.1 (hf.2.1 hd),
            fun hi => hr.2.2 (hf.2.2 hi)⟩

theorem runLines_sim {s' : RS} {c1 : Calc} {ls : List String}
    (hnodup : NoDupCalc c1) (hsub : subCalc s'.c c1) :
    ∀ s : RS, runLines s ls = .ok s' → Inv1 s →
      runLines (mergeRS s c1) ls = .ok (mergeRS s' c1) := by
  induction ls with
  | nil =>
      intro s h hinv
      injection h with h
      subst h
      rfl
  | cons l ls ih =>
      intro s h hinv
      unfold runLines at h ⊢
      cases hstep : step s l with
      | error e =>
          rw [hstep] at h
          exact Except.noConfusion h
      | ok s1 =>
          rw [hstep] at h
          have hr := runLines_facts s1 h
          have hfs := stepL_facts (fun t ht => pySplit_tok_ne_empty ht) hstep
          have hsim : stepL (mergeRS s c1) (pySplit l) = .ok (mergeRS s1 c1) :=
            stepL_sim (fun t ht => pySplit_tok_ne_empty ht) hstep
              (subCalc_trans hr.1 hsub) hnodup hinv
          rw [show step (mergeRS s c1) l = .ok (mergeRS s1 c1) from hsim]
          exact ih s1 h (hfs.2.2 hinv)

theorem mergeCalc_fresh (c1 : Calc) : mergeCalc freshCalc c1 = c1 := by
  simp only [mergeCalc, freshCalc, mergeDict_nil, mergeO, mergeS, List.append_nil,
    if_pos]

theorem initRS_merge (c1 : Calc) : mergeRS (initRS freshCalc) c1 = initRS c1 := by
  simp only [mergeRS, initRS, mergeCalc_fresh]

/-! ### Claim theorems -/

/-- C8: after `build_input`, the stored `system["nat"]` is the rendered
length of the atom list and `system["ntyp"]` the rendered length of the
species list, whatever those keys held before the call. -/
theorem c8_counts_recomputed (m : Calc) :
    lookupD (build_input m).1.system "nat" = some (natStr m.atom_type.length) ∧
    lookupD (build_input m).1.system "ntyp" = some (natStr m.atomic_species.length) := by
  constructor
  · show lookupD (updateD (updateD m.system "nat" (natStr m.atom_type.length))
      "ntyp" (natStr m.atomic_species.length)) "nat" = _
    rw [lookupD_updateD_ne _ _ _ _ (by decide), lookupD_updateD_self]
  · show lookupD (updateD (updateD m.system "nat" (natStr m.atom_type.length))
      "ntyp" (natStr m.atomic_species.length)) "ntyp" = _
    rw [lookupD_updateD_self]

/-- C6 counterexample: `build_input` does mutate the model it is given —
on a model whose stored `nat` is `"5"` with no atoms, the system mapping
changes. -/
theorem c6_counterexample : (build_input m6).1 ≠ m6 := by decide

/-- C6 (amended): `build_input` changes nothing outside the `system`
mapping, and inside it only the keys `nat` and `ntyp`. -/
theorem c6_amended (m : Calc) :
    (build_input m).1 = { m with system := (build_input m).1.system } ∧
    (∀ k, k ≠ "nat" → k ≠ "ntyp" →
      lookupD (build_input m).1.system k = lookupD m.system k) := by
  refine ⟨rfl, fun k h1 h2 => ?_⟩
  show lookupD (updateD (updateD m.system "nat" (natStr m.atom_type.length))
    "ntyp" (natStr m.atomic_species.length)) k = _
  rw [lookupD_updateD_ne _ _ _ _ h2, lookupD_updateD_ne _ _ _ _ h1]

/-- C6 witness: the amended frame property at the model `m6` and the
key `ibrav`. -/
theorem c6_witness :
    (build_input m6).1 = { m6 with system := (build_input m6).1.system } ∧
    lookupD (build_input m6).1.system "ibrav" = lookupD m6.system "ibrav" :=
  ⟨(c6_amended m6).1, (c6_amended m6).2 "ibrav" (by decide) (by decide)⟩

/-- C2 counterexample: on a malformed input (a blank line) `read_input`
fails with a generic `IndexError`, not a structured parse error carrying
line and reason (no such error type exists in the code). -/
theorem c2_counterexample : read_input freshCalc "\n" = .error .indexError := by
  decide

/-- C2 (amended): malformed deck input makes `read_input` fail with the
generic Python exceptions — `IndexError` for a blank line or a line with
too few tokens, and `KeyError` (not a `MissingSection` value) when an
`ATOMIC_SPECIES` or `ATOMIC_POSITIONS` card precedes the `SYSTEM` namelist
that defines its count. -/
theorem c2_amended :
    read_input freshCalc "\n" = .error .indexError ∧
    read_input freshCalc "&CONTROL\necutwfc =\n" = .error .indexError ∧
    read_input freshCalc "ATOMIC_SPECIES\nH 1.0 H.upf\n" = .error .keyError ∧
    read_input freshCalc "ATOMIC_POSITIONS angstrom\nH 0.0 0.0 0.0\n" =
      .error .keyError := by
  refine ⟨?_, ?_, ?_, ?_⟩ <;> decide

/-- C1: serializing a model with an explicit k-point list emits
`str(self.wk)` (the Python repr of the weight list) where the k-point
count belongs, so re-parsing the serialized deck fails with a
`ValueError` — the round-trip law breaks on the explicit-list variant. -/
theorem c1_explicit_klist_roundtrip_fails :
    ∃ s, (build_input mC1).2 = .ok s ∧
      read_input freshCalc s = .error .valueError := by
  refine ⟨_, rfl, ?_⟩
  decide

/-- C4: on a log with two `crystal axes:` blocks the scanner returns empty
cell vectors — the block counter `i` is never reset, so the second block is
skipped after the first reset the lists — while the energy series still
gets one entry per `!` line. -/
theorem c4_second_snapshot_lost :
    ∃ o, __get_output_info__ logC4 = .ok o ∧
      o.v1 = [] ∧ o.v2 = [] ∧ o.v3 = [] ∧
      o.energy.length = 2 ∧
      o.v1 ≠ [pyF "2.000000" * (pyF "1.000000" * bohr2angs), 0, 0] := by
  refine ⟨_, rfl, ?_, ?_, ?_, ?_, ?_⟩ <;> decide

/-- C5 counterexample: with lattice parameter `2.0` and a first axis
`(1,0,0)`, the stored first component is the parsed component times `a0`
where `a0 = 2 * 0.529177` — and that value differs from the value the
claim prescribes, namely the same component additionally multiplied
by `0.529177`. -/
theorem c5_counterexample :
    ∃ o, __get_output_info__ logC5 = .ok o ∧
      o.v1.get? 0 = some (pyF "1.000000" * (pyF "2.000000" * bohr2angs)) ∧
      pyF "1.000000" * (pyF "2.000000" * bohr2angs) ≠
        pyF "1.000000" * (pyF "2.000000" * bohr2angs) * bohr2angs := by
  refine ⟨_, rfl, rfl, ?_⟩
  have h1 : pyF "1.000000" = 1 := by
    simp [pyF, pyFloat, splitDot, digitsVal]
  have h2 : pyF "2.000000" = 2 := by
    simp [pyF, pyFloat, splitDot, digitsVal]
  rw [h1, h2]
  rw [bohr2angs]
  norm_num

/-- C3 counterexample: `build_input` is not total — on a model whose
`control` mapping lacks `calculation` it raises a `KeyError` instead of
returning deck text. -/
theorem c3_counterexample : (build_input freshCalc).2 = .error .keyError := by
  decide

/-- C3 (amended): `build_input` raises `KeyError` when `control.calculation`
or `system.ibrav` is missing; it returns deck text whenever both keys are
present, `ibrav` parses as an integer, and the list fields are
length-consistent (mass and pseudopotential cover the species list; x/y/z
and, when `if_pos1` is nonempty, the `if_pos` lists cover the atom list;
the cell vectors have 3 components when `ibrav = 0`; kx/ky/kz cover `wk`
for an explicit k-point list). -/
theorem c3_amended (m : Calc) (cv ib : String) (ibn : ℤ)
    (hcalc : lookupD m.control "calculation" = some cv)
    (hib : lookupD m.system "ibrav" = some ib)
    (hibn : pyInt ib = .ok ibn)
    (hv : ibn = 0 → 3 ≤ m.v1.length ∧ 3 ≤ m.v2.length ∧ 3 ≤ m.v3.length)
    (hmass : m.atomic_species.length ≤ m.atomic_mass.length)
    (hpseudo : m.atomic_species.length ≤ m.pseudopotential.length)
    (hx : m.atom_type.length ≤ m.x.length)
    (hy : m.atom_type.length ≤ m.y.length)
    (hz : m.atom_type.length ≤ m.z.length)
    (hifp : m.if_pos1 ≠ [] → m.atom_type.length ≤ m.if_pos1.length ∧
      m.atom_type.length ≤ m.if_pos2.length ∧ m.atom_type.length ≤ m.if_pos3.length)
    (hk : m.k_points_type ≠ "gamma" → m.k_points_type ≠ "automatic" →
      m.wk.length ≤ m.kx.length ∧ m.wk.length ≤ m.ky.length ∧
      m.wk.length ≤ m.kz.length) :
    ∃ s, (build_input m).2 = .ok s := by
  show ∃ s, buildStr (updateCounts m) = .ok s
  have hcalc' : lookupD (updateCounts m).control "calculation" = some cv := hcalc
  have hib' : lookupD (updateCounts m).system "ibrav" = some ib := by
    show lookupD (updateD (updateD m.system "nat" (natStr m.atom_type.length))
      "ntyp" (natStr m.atomic_species.length)) "ibrav" = some ib
    rw [lookupD_updateD_ne _ _ _ _ (by decide),
      lookupD_updateD_ne _ _ _ _ (by decide), hib]
  have hv' : ibn = 0 → 3 ≤ (updateCounts m).v1.length ∧
      3 ≤ (updateCounts m).v2.length ∧ 3 ≤ (updateCounts m).v3.length := hv
  have hmass' : (updateCounts m).atomic_species.length ≤
      (updateCounts m).atomic_mass.length := hmass
  have hpseudo' : (updateCounts m).atomic_species.length ≤
      (updateCounts m).pseudopotential.length := hpseudo
  have hx' : (updateCounts m).atom_type.length ≤ (updateCounts m).x.length := hx
  have hy' : (updateCounts m).atom_type.length ≤ (updateCounts m).y.length := hy
  have hz' : (updateCounts m).atom_type.length ≤ (updateCounts m).z.length := hz
  have hifp' : (updateCounts m).if_pos1 ≠ [] →
      (updateCounts m).atom_type.length ≤ (updateCounts m).if_pos1.length ∧
      (updateCounts m).atom_type.length ≤ (updateCounts m).if_pos2.length ∧
      (updateCounts m).atom_type.length ≤ (updateCounts m).if_pos3.length := hifp
  have hk' : (updateCounts m).k_points_type ≠ "gamma" →
      (updateCounts m).k_points_type ≠ "automatic" →
      (updateCounts m).wk.length ≤ (updateCounts m).kx.length ∧
      (updateCounts m).wk.length ≤ (updateCounts m).ky.length ∧
      (updateCounts m).wk.length ≤ (updateCounts m).kz.length := hk
  generalize hM : updateCounts m = M at hcalc' hib' hv' hmass' hpseudo' hx' hy' hz' hifp' hk' ⊢
  obtain ⟨s6, hs6⟩ := speciesCard_ok M hmass' hpseudo'
  obtain ⟨s8, hs8⟩ := posCard_ok M hx' hy' hz' hifp'
  obtain ⟨s9, hs9⟩ := kCard_ok M hk'
  refine okE_exists _ ?_
  by_cases hibz : ibn = 0
  · obtain ⟨s7, hs7⟩ := cellParamsCard_ok M (hv' hibz).1 (hv' hibz).2.1
      (hv' hibz).2.2
    simp only [buildStr, getD0, hcalc', hib', optE_some, ok_bind, hibn,
      posCard] at hs8 ⊢
    simp only [hibz, hs6, hs7, hs8, hs9, ok_bind, okE, reduceIte]
  · simp only [buildStr, getD0, hcalc', hib', optE_some, ok_bind, hibn,
      posCard] at hs8 ⊢
    simp only [if_neg hibz, hs6, hs8, hs9, ok_bind, okE]

/-- C3 witness: the amended success property at the concrete model `mC1`. -/
theorem c3_witness : ∃ s, (build_input mC1).2 = .ok s :=
  c3_amended mC1 "'scf'" "1" 1 (by decide) (by decide) (by decide) (by decide)
    (by decide) (by decide) (by decide) (by decide) (by decide) (by decide)
    (by decide)

/-- C9: the serializer consults the `if_pos` columns exactly when `if_pos1`
is nonempty — with `if_pos1 = []` every atom line is the 4-column form —
and on a model whose nonempty `if_pos1` is shorter than the atom list
(the state `read_input` leaves after an `ATOMIC_POSITIONS` card mixing
4-token and 7-token lines), `build_input` raises an `IndexError` instead
of producing deck text. -/
theorem c9_ifpos_columns (m : Calc) :
    (∀ i t xi yi zi, m.if_pos1 = [] →
      m.atom_type.get? i = some t → m.x.get? i = some xi →
      m.y.get? i = some yi → m.z.get? i = some zi →
      posLine m i = .ok (t ++ "   " ++ pyFloatStr xi ++ "   " ++ pyFloatStr yi ++
        "   " ++ pyFloatStr zi ++ "\n")) ∧
    (∀ cv ib ibn, m.if_pos1 ≠ [] → m.if_pos1.length < m.atom_type.length →
      m.if_pos1.length ≤ m.if_pos2.length → m.if_pos1.length ≤ m.if_pos3.length →
      lookupD m.control "calculation" = some cv →
      lookupD m.system "ibrav" = some ib → pyInt ib = .ok ibn →
      (ibn = 0 → 3 ≤ m.v1.length ∧ 3 ≤ m.v2.length ∧ 3 ≤ m.v3.length) →
      m.atomic_species.length ≤ m.atomic_mass.length →
      m.atomic_species.length ≤ m.pseudopotential.length →
      m.atom_type.length ≤ m.x.length → m.atom_type.length ≤ m.y.length →
      m.atom_type.length ≤ m.z.length →
      (build_input m).2 = .error .indexError) := by
  constructor
  · intro i t xi yi zi hnil ht hxg hyg hzg
    have hip : m.if_pos1.length = 0 := by rw [hnil]; rfl
    simp only [posLine, getE_of_get? ht, getE_of_get? hxg, getE_of_get? hyg,
      getE_of_get? hzg, ok_bind, if_pos hip]
  · intro cv ib ibn hne hlt hp2 hp3 hcalc hib hibn hv hmass hpseudo hx hy hz
    show buildStr (updateCounts m) = .error .indexError
    have hcalc' : lookupD (updateCounts m).control "calculation" = some cv := hcalc
    have hib' : lookupD (updateCounts m).system "ibrav" = some ib := by
      show lookupD (updateD (updateD m.system "nat" (natStr m.atom_type.length))
        "ntyp" (natStr m.atomic_species.length)) "ibrav" = some ib
      rw [lookupD_updateD_ne _ _ _ _ (by decide),
        lookupD_updateD_ne _ _ _ _ (by decide), hib]
    have hv' : ibn = 0 → 3 ≤ (updateCounts m).v1.length ∧
        3 ≤ (updateCounts m).v2.length ∧ 3 ≤ (updateCounts m).v3.length := hv
    have hmass' : (updateCounts m).atomic_species.length ≤
        (updateCounts m).atomic_mass.length := hmass
    have hpseudo' : (updateCounts m).atomic_species.length ≤
        (updateCounts m).pseudopotential.length := hpseudo
    have hx' : (updateCounts m).atom_type.length ≤ (updateCounts m).x.length := hx
    have hy' : (updateCounts m).atom_type.length ≤ (updateCounts m).y.length := hy
    have hz' : (updateCounts m).atom_type.length ≤ (updateCounts m).z.length := hz
    have hne' : (updateCounts m).if_pos1 ≠ [] := hne
    have hlt' : (updateCounts m).if_pos1.length <
        (updateCounts m).atom_type.length := hlt
    have hp2' : (updateCounts m).if_pos1.length ≤
        (updateCounts m).if_pos2.length := hp2
    have hp3' : (updateCounts m).if_pos1.length ≤
        (updateCounts m).if_pos3.length := hp3
    generalize hM : updateCounts m = M at hcalc' hib' hv' hmass' hpseudo' hx' hy' hz' hne' hlt' hp2' hp3' ⊢
    obtain ⟨s6, hs6⟩ := speciesCard_ok M hmass' hpseudo'
    have hs8 := posCard_error M hne' hlt' hp2' hp3' hx' hy' hz'
    by_cases hibz : ibn = 0
    · obtain ⟨s7, hs7⟩ := cellParamsCard_ok M (hv' hibz).1 (hv' hibz).2.1
        (hv' hibz).2.2
      simp only [buildStr, getD0, hcalc', hib', optE_some, ok_bind, hibn,
        posCard] at hs8 ⊢
      simp only [hibz, hs6, hs7, hs8, ok_bind, error_bind, reduceIte]
    · simp only [buildStr, getD0, hcalc', hib', optE_some, ok_bind, hibn,
        posCard] at hs8 ⊢
      simp only [if_neg hibz, hs6, hs8, ok_bind, error_bind]

/-- C9 witness: the 4-column line shape at `mC1` (empty `if_pos1`) and the
`IndexError` at `mC9` (one `if_pos` row for two atoms). -/
theorem c9_witness :
    posLine mC1 0 = .ok ("H   0.0   0.0   0.0\n") ∧
    (build_input mC9).2 = .error .indexError :=
  ⟨(c9_ifpos_columns mC1).1 0 "H" 0 0 0 rfl rfl rfl rfl rfl,
   (c9_ifpos_columns mC9).2 "'scf'" "1" 1 (by decide) (by decide) (by decide)
     (by decide) (by decide) (by decide) (by decide) (by decide) (by decide)
     (by decide) (by decide) (by decide) (by decide)⟩

/-- C5 (amended): scanning a `lattice parameter` line with value `p`
followed by a `crystal axes:` header and three vector lines sets
`a0 = p * 0.529177` and stores each component scaled by the current `a0`
only (the `0.529177` length conversion is already contained in `a0`). -/
theorem c5_amended (sp sx1 sy1 sz1 sx2 sy2 sz2 sx3 sy3 sz3 : String)
    (p x1 y1 z1 x2 y2 z2 x3 y3 z3 : ℚ)
    (hp : pyFloat sp = .ok p)
    (h1 : pyFloat sx1 = .ok x1) (h2 : pyFloat sy1 = .ok y1)
    (h3 : pyFloat sz1 = .ok z1) (h4 : pyFloat sx2 = .ok x2)
    (h5 : pyFloat sy2 = .ok y2) (h6 : pyFloat sz2 = .ok z2)
    (h7 : pyFloat sx3 = .ok x3) (h8 : pyFloat sy3 = .ok y3)
    (h9 : pyFloat sz3 = .ok z3) :
    (scanTokens initOS
      [["lattice", "parameter", "(alat)", "=", sp, "a.u."],
       ["crystal", "axes:"],
       ["a(1)", "=", "(", sx1, sy1, sz1, ")"],
       ["a(2)", "=", "(", sx2, sy2, sz2, ")"],
       ["a(3)", "=", "(", sx3, sy3, sz3, ")"]]).map
        (fun o => (o.a0, o.v1, o.v2, o.v3)) =
      .ok (some (p * bohr2angs),
        [x1 * (p * bohr2angs), y1 * (p * bohr2angs), z1 * (p * bohr2angs)],
        [x2 * (p * bohr2angs), y2 * (p * bohr2angs), z2 * (p * bohr2angs)],
        [x3 * (p * bohr2angs), y3 * (p * bohr2angs), z3 * (p * bohr2angs)]) := by
  have e1 : stepOut initOS ["lattice", "parameter", "(alat)", "=", sp, "a.u."] =
      .ok (c5S1 p) := stepOut_lattice initOS "(alat)" "a.u." sp p hp
  have e2 : stepOut (c5S1 p) ["crystal", "axes:"] = .ok (c5S2 p) :=
    stepOut_crystal (c5S1 p)
  have e3 : stepOut (c5S2 p) ["a(1)", "=", "(", sx1, sy1, sz1, ")"] =
      .ok (c5S3 p x1 y1 z1) :=
    stepOut_vec1 (c5S2 p) "a(1)" sx1 sy1 sz1 x1 y1 z1 (p * bohr2angs)
      (by decide) rfl rfl rfl h1 h2 h3
  have e4 : stepOut (c5S3 p x1 y1 z1) ["a(2)", "=", "(", sx2, sy2, sz2, ")"] =
      .ok (c5S4 p x1 y1 z1 x2 y2 z2) :=
    stepOut_vec2 (c5S3 p x1 y1 z1) "a(2)" sx2 sy2 sz2 x2 y2 z2 (p * bohr2angs)
      (by decide) rfl (show ¬((1 : ℤ) = 0) by decide) rfl rfl h4 h5 h6
  have e5 : stepOut (c5S4 p x1 y1 z1 x2 y2 z2)
        ["a(3)", "=", "(", sx3, sy3, sz3, ")"] =
      .ok (c5S5 p x1 y1 z1 x2 y2 z2 x3 y3 z3) :=
    stepOut_vec3 (c5S4 p x1 y1 z1 x2 y2 z2) "a(3)" sx3 sy3 sz3 x3 y3 z3
      (p * bohr2angs) (by decide) rfl (show ¬((2 : ℤ) = 0) by decide)
      (show ¬((2 : ℤ) = 1) by decide) rfl rfl h7 h8 h9
  simp only [scanTokens, e1, e2, e3, e4, e5, Except.map]
  rfl

/-- C5 witness: the amended scaling at `p = 2` and identity axes. -/
theorem c5_amended_witness :
    (scanTokens initOS
      [["lattice", "parameter", "(alat)", "=", "2.0", "a.u."],
       ["crystal", "axes:"],
       ["a(1)", "=", "(", "1.0", "0.0", "0.0", ")"],
       ["a(2)", "=", "(", "0.0", "1.0", "0.0", ")"],
       ["a(3)", "=", "(", "0.0", "0.0", "1.0", ")"]]).map
        (fun o => (o.a0, o.v1, o.v2, o.v3)) =
      .ok (some (2 * bohr2angs),
        [1 * (2 * bohr2angs), 0 * (2 * bohr2angs), 0 * (2 * bohr2angs)],
        [0 * (2 * bohr2angs), 1 * (2 * bohr2angs), 0 * (2 * bohr2angs)],
        [0 * (2 * bohr2angs), 0 * (2 * bohr2angs), 1 * (2 * bohr2angs)]) :=
  c5_amended "2.0" "1.0" "0.0" "0.0" "0.0" "1.0" "0.0" "0.0" "0.0" "1.0"
    2 1 0 0 0 1 0 0 0 1
    (by simp [pyFloat, splitDot, digitsVal])
    (by simp [pyFloat, splitDot, digitsVal])
    (by simp [pyFloat, splitDot, digitsVal])
    (by simp [pyFloat, splitDot, digitsVal])
    (by simp [pyFloat, splitDot, digitsVal])
    (by simp [pyFloat, splitDot, digitsVal])
    (by simp [pyFloat, splitDot, digitsVal])
    (by simp [pyFloat, splitDot, digitsVal])
    (by simp [pyFloat, splitDot, digitsVal])
    (by simp [pyFloat, splitDot, digitsVal])

/-- C7 counterexample: with an absent (empty) final atom list but cell
vectors present, `__write_coords__` succeeds — it does not fail with any
`MissingData` error (no such error type exists in the code). -/
theorem c7_counterexample :
    ∃ s, __write_coords__ oEmptyAtoms = .ok s := by
  exact ⟨_, rfl⟩

/-- C7 (amended): whenever the three cell vectors have at least 3
components and `x`/`y`/`z` cover the atom list, `__write_coords__`
succeeds and emits the count line, the 9 lattice scalars at 6-decimal
precision, and one species-plus-3-coordinates line per atom at 6-decimal
precision; an empty atom list is not an error. -/
theorem c7_amended (o : Outm)
    (h1 : 3 ≤ o.v1.length) (h2 : 3 ≤ o.v2.length) (h3 : 3 ≤ o.v3.length)
    (hx : o.atom_type.length ≤ o.x.length) (hy : o.atom_type.length ≤ o.y.length)
    (hz : o.atom_type.length ≤ o.z.length) :
    __write_coords__ o = .ok (natStr o.atom_type.length ++ "\n" ++
      ("Lattice=\"" ++ fmt6 (o.v1.getD 0 0) ++ " " ++ fmt6 (o.v1.getD 1 0) ++ " " ++
        fmt6 (o.v1.getD 2 0) ++ " " ++ fmt6 (o.v2.getD 0 0) ++ " " ++
        fmt6 (o.v2.getD 1 0) ++ " " ++ fmt6 (o.v2.getD 2 0) ++ " " ++
        fmt6 (o.v3.getD 0 0) ++ " " ++ fmt6 (o.v3.getD 1 0) ++ " " ++
        fmt6 (o.v3.getD 2 0) ++ "\" Properties=species:S:1:pos:R:3\n") ++
      strConcat ((List.range o.atom_type.length).map (fun i =>
        o.atom_type.getD i "" ++ " " ++ fmt6 (o.x.getD i 0) ++ " " ++
        fmt6 (o.y.getD i 0) ++ " " ++ fmt6 (o.z.getD i 0) ++ "\n"))) := by
  have hbody := joinE_map_ok (coordLine o)
    (fun i => o.atom_type.getD i "" ++ " " ++ fmt6 (o.x.getD i 0) ++ " " ++
      fmt6 (o.y.getD i 0) ++ " " ++ fmt6 (o.z.getD i 0) ++ "\n")
    (List.range o.atom_type.length)
    (fun i hi => by
      have hilt : i < o.atom_type.length := List.mem_range.mp hi
      simp only [coordLine,
        getE_of_get? (get?_eq_some_getD o.atom_type i hilt),
        getE_of_get? (get?_eq_some_getD o.x i (by omega)),
        getE_of_get? (get?_eq_some_getD o.y i (by omega)),
        getE_of_get? (get?_eq_some_getD o.z i (by omega)), ok_bind]
      rfl)
  simp only [__write_coords__,
    getE_of_get? (get?_eq_some_getD o.v1 0 (by omega)),
    getE_of_get? (get?_eq_some_getD o.v1 1 (by omega)),
    getE_of_get? (get?_eq_some_getD o.v1 2 (by omega)),
    getE_of_get? (get?_eq_some_getD o.v2 0 (by omega)),
    getE_of_get? (get?_eq_some_getD o.v2 1 (by omega)),
    getE_of_get? (get?_eq_some_getD o.v2 2 (by omega)),
    getE_of_get? (get?_eq_some_getD o.v3 0 (by omega)),
    getE_of_get? (get?_eq_some_getD o.v3 1 (by omega)),
    getE_of_get? (get?_eq_some_getD o.v3 2 (by omega)),
    hbody, ok_bind]
  rfl

/-- C7 witness: the amended output format at a concrete two-atom model. -/
theorem c7_witness :
    __write_coords__ oC7 = .ok
      ("2\n" ++
       "Lattice=\"1.000000 0.000000 0.000000 0.000000 1.000000 0.000000 0.000000 0.000000 1.000000\" Properties=species:S:1:pos:R:3\n" ++
       "H 1.000000 0.000000 0.000000\nO 2.000000 3.000000 5.000000\n") := by
  rw [c7_amended oC7 (by decide) (by decide) (by decide) (by decide) (by decide)
    (by decide)]
  rfl

/-- C10: `read_input` is not idempotent on the object: re-reading the same
well-formed deck text on the object produced by a first `read_input` from a
fresh object succeeds, leaves the five namelist dictionaries unchanged, and
doubles the lengths of `atomic_species`, `atom_type`, `x`, `y`, `z` and
`v1`/`v2`/`v3`, since the card branches append while the namelist branches
overwrite by key. -/
theorem c10_reread_appends {text : String} {c1 : Calc}
    (h : read_input freshCalc text = .ok c1) :
    ∃ c2, read_input c1 text = .ok c2 ∧
      c2.control = c1.control ∧ c2.system = c1.system ∧
      c2.electrons = c1.electrons ∧ c2.ions = c1.ions ∧ c2.cell = c1.cell ∧
      c2.atomic_species.length = 2 * c1.atomic_species.length ∧
      c2.atom_type.length = 2 * c1.atom_type.length ∧
      c2.x.length = 2 * c1.x.length ∧
      c2.y.length = 2 * c1.y.length ∧
      c2.z.length = 2 * c1.z.length ∧
      c2.v1.length = 2 * c1.v1.length ∧
      c2.v2.length = 2 * c1.v2.length ∧
      c2.v3.length = 2 * c1.v3.length := by
  unfold read_input at h
  cases hrun : runLines (initRS freshCalc) (pyLines text) with
  | error e =>
      rw [hrun] at h
      exact Except.noConfusion h
  | ok s =>
      rw [hrun] at h
      injection h with h
      subst h
      have hfacts := runLines_facts (initRS freshCalc) hrun
      have hnodup : NoDupCalc s.c :=
        hfacts.2.1 ⟨List.nodup_nil, List.nodup_nil, List.nodup_nil,
          List.nodup_nil, List.nodup_nil⟩
      have hinv0 : Inv1 (initRS freshCalc) := fun hk => absurd hk Bool.false_ne_true
      have hsim := runLines_sim hnodup (subCalc_refl s.c) (initRS freshCalc) hrun hinv0
      rw [initRS_merge] at hsim
      have hlen2 : ∀ {α : Type} (xs : List α), (xs ++ xs).length = 2 * xs.length := by
        intro α xs
        rw [List.length_append, two_mul]
      exact ⟨(mergeRS s s.c).c,
        by unfold read_input; rw [hsim],
        mergeDict_self hnodup.1, mergeDict_self hnodup.2.1,
        mergeDict_self hnodup.2.2.1, mergeDict_self hnodup.2.2.2.1,
        mergeDict_self hnodup.2.2.2.2,
        hlen2 _, hlen2 _, hlen2 _, hlen2 _, hlen2 _, hlen2 _, hlen2 _, hlen2 _⟩

theorem c10_witness :
    read_input freshCalc c10deck = .ok c10c1 ∧
    (∃ c2, read_input c10c1 c10deck = .ok c2 ∧
      c2.control = c10c1.control ∧ c2.system = c10c1.system ∧
      c2.electrons = c10c1.electrons ∧ c2.ions = c10c1.ions ∧
      c2.cell = c10c1.cell ∧
      c2.atomic_species.length = 2 * c10c1.atomic_species.length ∧
      c2.atom_type.length = 2 * c10c1.atom_type.length ∧
      c2.x.length = 2 * c10c1.x.length ∧
      c2.y.length = 2 * c10c1.y.length ∧
      c2.z.length = 2 * c10c1.z.length ∧
      c2.v1.length = 2 * c10c1.v1.length ∧
      c2.v2.length = 2 * c10c1.v2.length ∧
      c2.v3.length = 2 * c10c1.v3.length) :=
  ⟨rfl, c10_reread_appends rfl⟩

end Qeijo
